import Mathlib

/-!
Verification model of the realtime core of the webinar backend: the SFU
(publisher/subscriber peer connections and relay tracks), the signaling Hub
(room map and Redis pub/sub subscriptions), the Redis-backed job queue with
retry, the recording tap (RTP sink and SDP generation), and the recording
service start path.  The definitions are a shallow embedding of the Go code:
peer connections are numbered handles, Go maps become association lists,
fallible WebRTC/OS calls are driven by explicit outcome oracles, and each
handler returns the new state together with the messages it sent.
-/

/-- A WebRTC peer-connection handle (numbered; `closed` in the state records
`Close` calls). -/
abbrev PC := Nat

/-- Webinar (room) identifier, standing in for `uuid.UUID`. -/
abbrev RoomId := Nat

/-- Client connection identifier (`Client.ID`). -/
abbrev ClientId := String

/-- `webrtc.RTPCodecType`: unspecified / audio / video. -/
inductive RTPKind where
  | unspecified
  | audio
  | video
  deriving DecidableEq, Repr

/-- `webrtc.RTPCodecCapability`, reduced to the fields the core consults. -/
structure Codec where
  mimeType : String
  clockRate : Nat
  deriving DecidableEq, Repr

/-- A remote track on the publisher PC (`webrtc.TrackRemote`). -/
structure RemoteTrack where
  kind : RTPKind
  codec : Codec
  trackId : String
  streamId : String
  deriving DecidableEq, Repr

/-- A local forwarding track (`webrtc.TrackLocalStaticRTP`), as constructed by
`NewTrackLocalStaticRTP(codec, id, streamID)`. -/
structure LocalTrack where
  codec : Codec
  trackId : String
  streamId : String
  deriving DecidableEq, Repr

/-- `NewTrackLocalStaticRTP(relay.remote.Codec().RTPCodecCapability,
relay.remote.ID(), relay.remote.StreamID())`. -/
def mkLocal (rt : RemoteTrack) : LocalTrack :=
  { codec := rt.codec, trackId := rt.trackId, streamId := rt.streamId }

/-- Association-list lookup (first match), modelling Go map indexing. -/
def alookup {α β : Type} [DecidableEq α] (k : α) : List (α × β) → Option β
  | [] => none
  | (k', v) :: rest => if k' = k then some v else alookup k rest

/-- Remove every binding of a key, modelling Go `delete(m, k)`. -/
def aerase {α β : Type} [DecidableEq α] (k : α) (l : List (α × β)) : List (α × β) :=
  l.filter (fun p => decide (p.1 ≠ k))

/-- Insert or replace a binding, modelling Go `m[k] = v`. -/
def aupsert {α β : Type} [DecidableEq α] (k : α) (v : β) (l : List (α × β)) :
    List (α × β) :=
  (k, v) :: aerase k l

theorem alookup_aerase_self {α β : Type} [DecidableEq α] (k : α) (l : List (α × β)) :
    alookup k (aerase k l) = none := by
  induction l with
  | nil => rfl
  | cons p rest ih =>
    by_cases h : p.1 = k
    · simpa [aerase, h] using ih
    · simpa [aerase, h, alookup] using ih

theorem aerase_cons_self {α β : Type} [DecidableEq α] {k : α} {p : α × β}
    (l : List (α × β)) (h : p.1 = k) : aerase k (p :: l) = aerase k l := by
  simp [aerase, h]

theorem aerase_cons_ne {α β : Type} [DecidableEq α] {k : α} {p : α × β}
    (l : List (α × β)) (h : p.1 ≠ k) : aerase k (p :: l) = p :: aerase k l := by
  simp [aerase, h]

theorem alookup_aerase_ne {α β : Type} [DecidableEq α] {k k' : α} (l : List (α × β))
    (h : k' ≠ k) : alookup k' (aerase k l) = alookup k' l := by
  induction l with
  | nil => rfl
  | cons p rest ih =>
    by_cases hp : p.1 = k
    · have hpk : p.1 ≠ k' := by rw [hp]; exact fun hc => h hc.symm
      rw [aerase_cons_self rest hp]
      cases p with
      | mk a b =>
        simp only [alookup]
        rw [if_neg (by simpa using hpk)]
        exact ih
    · rw [aerase_cons_ne rest hp]
      cases p with
      | mk a b =>
        simp only [alookup]
        by_cases hpk : a = k'
        · rw [if_pos hpk, if_pos hpk]
        · rw [if_neg hpk, if_neg hpk]
          exact ih

theorem alookup_aupsert_self {α β : Type} [DecidableEq α] (k : α) (v : β)
    (l : List (α × β)) : alookup k (aupsert k v l) = some v := by
  simp [aupsert, alookup]

theorem alookup_aupsert_ne {α β : Type} [DecidableEq α] {k k' : α} (v : β)
    (l : List (α × β)) (h : k' ≠ k) :
    alookup k' (aupsert k v l) = alookup k' l := by
  have hk : k ≠ k' := fun hc => h hc.symm
  simp [aupsert, alookup, hk, alookup_aerase_ne l h]

/-! ## SFU model (src realtime SFU: publisher, subscribers, relay tracks) -/

/-- Payloads of messages sent via the `sendToClient` closure. -/
inductive Payload where
  | errMsg (message : String)
  | sdpPayload (ty : String) (sdp : String)
  | icePayload (target : String) (candidate : String)
  deriving DecidableEq, Repr

/-- One relay track: the remote track plus the list of per-subscriber local
forwarding tracks. -/
structure RelayTrack where
  remote : RemoteTrack
  locals : List LocalTrack
  deriving DecidableEq, Repr

/-- Per-room SFU state (`sfuRoom`): optional publisher PC, ordered relay
tracks, subscriber map, optional recording sink. -/
structure SfuRoom where
  publisher : Option PC
  tracks : List RelayTrack
  subscribers : List (ClientId × PC)
  recordingSink : Bool
  deriving DecidableEq, Repr

/-- The whole SFU: room map plus bookkeeping of allocated/closed PCs, the
tracks added to each PC (`pc.AddTrack`), and the history of installed
publishers (used to state the exactly-one-publisher property). -/
structure SfuState where
  rooms : List (RoomId × SfuRoom)
  nextPC : PC
  closed : List PC
  pcTracks : List (PC × List LocalTrack)
  pubHistory : List (RoomId × PC)
  deriving DecidableEq, Repr

def emptySfuRoom : SfuRoom :=
  { publisher := none, tracks := [], subscribers := [], recordingSink := false }

def initSfu : SfuState :=
  { rooms := [], nextPC := 0, closed := [], pcTracks := [], pubHistory := [] }

/-- `getOrCreateRoom`: find the room or insert a fresh one. -/
def getOrCreateRoom (st : SfuState) (rid : RoomId) : SfuState × SfuRoom :=
  match alookup rid st.rooms with
  | some r => (st, r)
  | none => ({ st with rooms := aupsert rid emptySfuRoom st.rooms }, emptySfuRoom)

/-- Write a room back into the map. -/
def setRoom (st : SfuState) (rid : RoomId) (r : SfuRoom) : SfuState :=
  { st with rooms := aupsert rid r st.rooms }

/-- Current publisher PC of a room (none if the room does not exist). -/
def roomPublisher (st : SfuState) (rid : RoomId) : Option PC :=
  match alookup rid st.rooms with
  | some r => r.publisher
  | none => none

/-- Current relay-track list of a room, if the room exists. -/
def roomTracks (st : SfuState) (rid : RoomId) : Option (List RelayTrack) :=
  match alookup rid st.rooms with
  | some r => some r.tracks
  | none => none

/-- `pc.AddTrack(local)`: record the local track against the PC handle. -/
def addTrack (pc : PC) (l : LocalTrack) (pcT : List (PC × List LocalTrack)) :
    List (PC × List LocalTrack) :=
  match alookup pc pcT with
  | some ls => aupsert pc (ls ++ [l]) pcT
  | none => aupsert pc [l] pcT

/-- Outcomes of the fallible WebRTC calls inside one handler invocation.
`localOk` is consumed one entry per `NewTrackLocalStaticRTP` call (`getD`
defaults to success). `sdpOut` is the SDP produced by `CreateAnswer` /
`CreateOffer`. -/
structure NegOracle where
  mediaEngineOk : Bool
  newPCOk : Bool
  setRemoteOk : Bool
  createAnswerOk : Bool
  createOfferOk : Bool
  setLocalOk : Bool
  localOk : List Bool
  sdpOut : String
  deriving DecidableEq, Repr

/-- The all-success oracle. -/
def okOracle : NegOracle :=
  { mediaEngineOk := true, newPCOk := true, setRemoteOk := true,
    createAnswerOk := true, createOfferOk := true, setLocalOk := true,
    localOk := [], sdpOut := "sdp" }

/-- Result of an SFU handler: new state, messages sent to the invoking client
(event name and payload), and whether a non-nil error was returned. -/
structure SfuResult where
  st : SfuState
  msgs : List (String × Payload)
  err : Bool
  deriving DecidableEq, Repr

/-- `SFU.HandlePublisherOffer`: reject non-speaker roles; close and replace any
existing publisher (clearing the track list); build the peer connection; apply
`SetRemoteDescription` / `CreateAnswer` / `SetLocalDescription`, closing the
new PC and returning the error if any step fails; on success install the
publisher and send `webrtc_publisher_answer`. -/
def handlePublisherOffer (rid : RoomId) (role : String) (o : NegOracle)
    (st : SfuState) : SfuResult :=
  if role ≠ "speaker" ∧ role ≠ "admin" then ⟨st, [], false⟩
  else
    let pr := getOrCreateRoom st rid
    let st1 := pr.1
    let r0 := pr.2
    let r1 := match r0.publisher with
      | some _ => { r0 with publisher := none, tracks := [] }
      | none => r0
    let closed1 := match r0.publisher with
      | some p => p :: st1.closed
      | none => st1.closed
    let st2 := { setRoom st1 rid r1 with closed := closed1 }
    if o.mediaEngineOk = false then ⟨st2, [], true⟩
    else if o.newPCOk = false then ⟨st2, [], true⟩
    else
      let pc := st2.nextPC
      let st3 := { st2 with nextPC := pc + 1 }
      if o.setRemoteOk = false then ⟨{ st3 with closed := pc :: st3.closed }, [], true⟩
      else if o.createAnswerOk = false then
        ⟨{ st3 with closed := pc :: st3.closed }, [], true⟩
      else if o.setLocalOk = false then
        ⟨{ st3 with closed := pc :: st3.closed }, [], true⟩
      else
        let st4 := setRoom st3 rid { r1 with publisher := some pc }
        let st5 := { st4 with pubHistory := (rid, pc) :: st4.pubHistory }
        ⟨st5, [("webrtc_publisher_answer", Payload.sdpPayload "answer" o.sdpOut)], false⟩

/-- One iteration of the `for _, relay := range r.tracks` loop of
`HandleSubscribe`: on success, append the new local track to the relay's
`locals` and `AddTrack` it to the subscriber PC; on failure skip the relay. -/
def subStep (pc : PC) :
    List RelayTrack × List (PC × List LocalTrack) × List Bool → RelayTrack →
    List RelayTrack × List (PC × List LocalTrack) × List Bool
  | (done, pcT, oks), relay =>
    if oks.headD true then
      let l := mkLocal relay.remote
      (done ++ [{ relay with locals := relay.locals ++ [l] }], addTrack pc l pcT,
        oks.tail)
    else (done ++ [relay], pcT, oks.tail)

/-- `SFU.HandleSubscribe`: send `webrtc_error {"message": "no_stream"}` when the
room is missing, has no publisher, or has no tracks; otherwise build a
subscriber PC, give it one local forwarding track per relay track (also
appended to the relay's `locals`), apply `CreateOffer` / `SetLocalDescription`
(closing the PC and returning the error on failure), insert the subscriber and
send `webrtc_subscriber_offer`. -/
def handleSubscribe (rid : RoomId) (cid : ClientId) (o : NegOracle)
    (st : SfuState) : SfuResult :=
  match alookup rid st.rooms with
  | none => ⟨st, [("webrtc_error", Payload.errMsg "no_stream")], false⟩
  | some r =>
    if r.publisher = none ∨ r.tracks = [] then
      ⟨st, [("webrtc_error", Payload.errMsg "no_stream")], false⟩
    else if o.mediaEngineOk = false then ⟨st, [], true⟩
    else if o.newPCOk = false then ⟨st, [], true⟩
    else
      let pc := st.nextPC
      let folded := r.tracks.foldl (subStep pc) ([], st.pcTracks, o.localOk)
      let r1 := { r with tracks := folded.1 }
      let st1 := { setRoom st rid r1 with nextPC := pc + 1, pcTracks := folded.2.1 }
      if o.createOfferOk = false then ⟨{ st1 with closed := pc :: st1.closed }, [], true⟩
      else if o.setLocalOk = false then
        ⟨{ st1 with closed := pc :: st1.closed }, [], true⟩
      else
        let r2 := { r1 with subscribers := aupsert cid pc r1.subscribers }
        ⟨setRoom st1 rid r2,
          [("webrtc_subscriber_offer", Payload.sdpPayload "offer" o.sdpOut)], false⟩

/-- One iteration of `relayTrackToSubscribers`: for each subscriber build a
local track (skipping on failure), append it to the relay and `AddTrack` it. -/
def onTrackStep (remote : RemoteTrack) :
    List LocalTrack × List (PC × List LocalTrack) × List Bool → ClientId × PC →
    List LocalTrack × List (PC × List LocalTrack) × List Bool
  | (locals, pcT, oks), sub =>
    if oks.headD true then
      (locals ++ [mkLocal remote], addTrack sub.2 (mkLocal remote) pcT, oks.tail)
    else (locals, pcT, oks.tail)

/-- The publisher PC's `OnTrack` callback: append a new relay track for the
remote track and attach a local forwarder for every current subscriber. -/
def onTrack (rid : RoomId) (remote : RemoteTrack) (localOk : List Bool)
    (st : SfuState) : SfuState :=
  match alookup rid st.rooms with
  | none => st
  | some r =>
    let folded := r.subscribers.foldl (onTrackStep remote) ([], st.pcTracks, localOk)
    let relay : RelayTrack := { remote := remote, locals := folded.1 }
    { setRoom st rid { r with tracks := r.tracks ++ [relay] } with
        pcTracks := folded.2.1 }

/-- `SFU.UnregisterClient`: drop the subscriber from the room and close its PC. -/
def unregisterClient (rid : RoomId) (cid : ClientId) (st : SfuState) : SfuState :=
  match alookup rid st.rooms with
  | none => st
  | some r =>
    match alookup cid r.subscribers with
    | some pc =>
      { setRoom st rid { r with subscribers := aerase cid r.subscribers } with
          closed := pc :: st.closed }
    | none => st

/-- `SFU.ClosePublisher`: close the publisher PC and clear the track list. -/
def closePublisher (rid : RoomId) (st : SfuState) : SfuState :=
  match alookup rid st.rooms with
  | none => st
  | some r =>
    let closed' := match r.publisher with
      | some p => p :: st.closed
      | none => st.closed
    { setRoom st rid { r with publisher := none, tracks := [] } with closed := closed' }

/-- `SFU.GetTrackInfo`: snapshot kind / mime type / clock rate per track. -/
structure TrackInfo where
  kind : RTPKind
  mimeType : String
  clockRate : Nat
  deriving DecidableEq, Repr

def getTrackInfo (rid : RoomId) (st : SfuState) : List TrackInfo :=
  match alookup rid st.rooms with
  | none => []
  | some r =>
    r.tracks.map fun relay =>
      { kind := relay.remote.kind, mimeType := relay.remote.codec.mimeType,
        clockRate := relay.remote.codec.clockRate }

/-- `SFU.RegisterRecordingSink`: set the sink on an existing room. -/
def registerRecordingSink (rid : RoomId) (st : SfuState) : SfuState :=
  match alookup rid st.rooms with
  | none => st
  | some r => setRoom st rid { r with recordingSink := true }

/-- `SFU.UnregisterRecordingSink`. -/
def unregisterRecordingSink (rid : RoomId) (st : SfuState) : SfuState :=
  match alookup rid st.rooms with
  | none => st
  | some r => setRoom st rid { r with recordingSink := false }

/-- The room-mutating SFU entry points, for reachability statements. -/
inductive SfuOp where
  | pubOffer (rid : RoomId) (role : String) (o : NegOracle)
  | subscribe (rid : RoomId) (cid : ClientId) (o : NegOracle)
  | trackArrives (rid : RoomId) (remote : RemoteTrack) (localOk : List Bool)
  | unregister (rid : RoomId) (cid : ClientId)
  | closePub (rid : RoomId)
  | regSink (rid : RoomId)
  | unregSink (rid : RoomId)
  deriving Repr

def applySfuOp (st : SfuState) : SfuOp → SfuState
  | .pubOffer rid role o => (handlePublisherOffer rid role o st).st
  | .subscribe rid cid o => (handleSubscribe rid cid o st).st
  | .trackArrives rid remote localOk => onTrack rid remote localOk st
  | .unregister rid cid => unregisterClient rid cid st
  | .closePub rid => closePublisher rid st
  | .regSink rid => registerRecordingSink rid st
  | .unregSink rid => unregisterRecordingSink rid st

/-- Run a sequence of SFU operations from the initial (empty) SFU. -/
def runSfu (ops : List SfuOp) : SfuState :=
  ops.foldl applySfuOp initSfu

/-! ## Hub model (signaling hub: room map, Redis subscriptions, broadcasts) -/

/-- A WebSocket message envelope (`WSMessage`). -/
structure WSMsg where
  event : String
  data : String
  deriving DecidableEq, Repr

/-- Capacity of a client's outbound channel (`make(chan WSMessage, 256)`). -/
def sendQueueCap : Nat := 256

/-- Hub state: `webinarID -> clientID -> outbound queue`, plus the Redis
subscription cancel handle per webinar, the handles already cancelled, and a
counter to mint fresh handles. -/
structure HubState where
  webinars : List (RoomId × List (ClientId × List WSMsg))
  subs : List (RoomId × Nat)
  cancelled : List Nat
  nextSub : Nat
  deriving DecidableEq, Repr

def initHub : HubState :=
  { webinars := [], subs := [], cancelled := [], nextSub := 0 }

/-- `Hub.Register`: insert the client (fresh empty queue); when the room was
previously absent, open the Redis subscription (when a subscriber is
configured and `SubscribeWebinar` succeeds) and remember its cancel handle. -/
def hubRegister (hasSub subOk : Bool) (rid : RoomId) (cid : ClientId)
    (st : HubState) : HubState :=
  match alookup rid st.webinars with
  | some m => { st with webinars := aupsert rid (aupsert cid [] m) st.webinars }
  | none =>
    let subs' := if hasSub ∧ subOk then aupsert rid st.nextSub st.subs else st.subs
    let nextSub' := if hasSub ∧ subOk then st.nextSub + 1 else st.nextSub
    { st with webinars := aupsert rid [(cid, [])] st.webinars,
              subs := subs', nextSub := nextSub' }

/-- `Hub.Unregister`: remove the client; when the room becomes empty, delete
the room entry, invoke the Redis cancel handle and delete it. -/
def hubUnregister (rid : RoomId) (cid : ClientId) (st : HubState) : HubState :=
  match alookup rid st.webinars with
  | none => st
  | some m =>
    let m' := aerase cid m
    if m' = [] then
      match alookup rid st.subs with
      | some h =>
        { st with webinars := aerase rid st.webinars, subs := aerase rid st.subs,
                  cancelled := h :: st.cancelled }
      | none => { st with webinars := aerase rid st.webinars }
    else { st with webinars := aupsert rid m' st.webinars }

/-- `Hub.BroadcastToWebinar`: non-blocking enqueue of the message onto every
local client's outbound queue; full queues drop the message. -/
def broadcastToWebinar (rid : RoomId) (ev data : String) (st : HubState) :
    HubState :=
  match alookup rid st.webinars with
  | none => st
  | some m =>
    let m' := m.map fun p =>
      (p.1, if p.2.length < sendQueueCap then p.2 ++ [WSMsg.mk ev data] else p.2)
    { st with webinars := aupsert rid m' st.webinars }

/-- An event published on the Redis bus: channel webinar id, event, payload. -/
structure PubEvent where
  rid : RoomId
  event : String
  data : String
  deriving DecidableEq, Repr

/-- `Hub.BroadcastToWebinarAndPublish`: local broadcast, then publish to Redis
when the publisher is configured. -/
def broadcastToWebinarAndPublish (hasRedis : Bool) (rid : RoomId)
    (ev data : String) (st : HubState) : HubState × List PubEvent :=
  (broadcastToWebinar rid ev data st,
    if hasRedis then [PubEvent.mk rid ev data] else [])

/-- `Hub.PublishToWebinarOnly`: publish to Redis only when the publisher is
configured; otherwise fall back to the local broadcast. -/
def publishToWebinarOnly (hasRedis : Bool) (rid : RoomId) (ev data : String)
    (st : HubState) : HubState × List PubEvent :=
  if hasRedis then (st, [PubEvent.mk rid ev data])
  else (broadcastToWebinar rid ev data st, [])

/-- `Hub.AudienceCount`. -/
def audienceCount (rid : RoomId) (st : HubState) : Nat :=
  ((alookup rid st.webinars).getD []).length

/-- Register/unregister operations; `subOk` is the `SubscribeWebinar` outcome
used if this registration opens the room. -/
inductive HubOp where
  | reg (rid : RoomId) (cid : ClientId) (subOk : Bool)
  | unreg (rid : RoomId) (cid : ClientId)
  deriving Repr

def applyHubOp (hasSub : Bool) (st : HubState) : HubOp → HubState
  | .reg rid cid subOk => hubRegister hasSub subOk rid cid st
  | .unreg rid cid => hubUnregister rid cid st

def runHub (hasSub : Bool) (ops : List HubOp) : HubState :=
  ops.foldl (applyHubOp hasSub) initHub

/-- Whether an op is a registration whose subscription attempt failed. -/
def HubOp.subOkOf : HubOp → Bool
  | .reg _ _ ok => ok
  | .unreg _ _ => true

/-! ## Job queue model (Redis lists with retry and dead-letter queue) -/

/-- `queue.MaxRetries`. -/
def MaxRetries : Nat := 3

/-- A job envelope (id, attempt; payload abstracted). -/
structure Job where
  id : String
  attempt : Nat
  deriving DecidableEq, Repr

/-- The two Redis lists the upload worker touches: `worker:recordings` and
`worker:dlq` (`RPush` appends at the right). -/
structure QState where
  recQ : List Job
  dlq : List Job
  deriving DecidableEq, Repr

/-- `Queue.Retry`: increment `attempt`; push to the DLQ when
`attempt >= MaxRetries`, else re-push onto the recordings queue. -/
def queueRetry (j : Job) (st : QState) : QState :=
  let j' := { j with attempt := j.attempt + 1 }
  if j'.attempt ≥ MaxRetries then { st with dlq := st.dlq ++ [j'] }
  else { st with recQ := st.recQ ++ [j'] }

/-- One `RecordingProcessor.Run` iteration after a job was dequeued:
on processing failure call `Queue.Retry`, on success push nothing. -/
def workerStep (success : Bool) (j : Job) (st : QState) : QState :=
  if success then st else queueRetry j st

/-- Pop the job at the head of the recordings queue (`BLPop`). -/
def dequeueJob (st : QState) : Option Job × QState :=
  match st.recQ with
  | [] => (none, st)
  | j :: rest => (some j, { st with recQ := rest })

/-! ## Recording sink model (`Sink.WriteRTP`) -/

/-- Which UDP connection a packet is sent on. -/
inductive ConnKind where
  | video
  | audio
  deriving DecidableEq, Repr

/-- The sink's session connections (present or nil). -/
structure SinkConns where
  videoConn : Bool
  audioConn : Bool
  deriving DecidableEq, Repr

/-- `payloadTypeVideo` / `payloadTypeAudio`. -/
def payloadTypeVideo : Nat := 96
def payloadTypeAudio : Nat := 97

/-- `Sink.WriteRTP`: drop packets shorter than 2 bytes; otherwise copy the
packet, rewrite the second byte to `(packet[1] & 0x80) | pt`, and send the
copy on the connection matching the kind (when that connection and address are
non-nil). Returns the unchanged session and the UDP send performed, if any. -/
def writeRTP (conns : SinkConns) (kind : RTPKind) (packet : List Nat) :
    SinkConns × Option (ConnKind × List Nat) :=
  if packet.length < 2 then (conns, none)
  else
    let pt := if kind = RTPKind.audio then payloadTypeAudio else payloadTypeVideo
    let rewritten := packet.set 1 (Nat.lor (Nat.land (packet.getD 1 0) 128) pt)
    if kind = RTPKind.video then
      (conns, if conns.videoConn then some (ConnKind.video, rewritten) else none)
    else
      (conns, if conns.audioConn then some (ConnKind.audio, rewritten) else none)

/-! ## SDP generation for the muxer (`buildSDP`) -/

/-- One track's `m=` and `a=rtpmap` lines, as emitted by the loop body of
`buildSDP`: defaults chosen by kind (video port / payload 96 / VP8 / 90000,
audio port / payload 97 / opus / 48000), codec and clock then overridden by
the recognized mime types; the media name comes from the Go kind-to-string
map (empty for an unspecified kind). -/
def trackLine (t : TrackInfo) (videoPort audioPort : Nat) : String :=
  let port := if t.kind = RTPKind.audio then audioPort else videoPort
  let pt := if t.kind = RTPKind.audio then payloadTypeAudio else payloadTypeVideo
  let codec0 := if t.kind = RTPKind.audio then "opus" else "VP8"
  let clock0 := if t.kind = RTPKind.audio then "48000" else "90000"
  let cc :=
    if t.mimeType = "video/VP8" ∨ t.mimeType = "video/vp8" then ("VP8", "90000")
    else if t.mimeType = "video/VP9" ∨ t.mimeType = "video/vp9" then ("VP9", "90000")
    else if t.mimeType = "video/H264" ∨ t.mimeType = "video/h264" then ("H264", "90000")
    else if t.mimeType = "audio/opus" ∨ t.mimeType = "audio/OPUS" then ("opus", "48000")
    else if t.mimeType = "audio/PCMU" then ("PCMU", "8000")
    else (codec0, clock0)
  let media :=
    match t.kind with
    | RTPKind.video => "video"
    | RTPKind.audio => "audio"
    | RTPKind.unspecified => ""
  "m=" ++ media ++ " " ++ toString port ++ " RTP/AVP " ++ toString pt ++
    "\r\n" ++ "a=rtpmap:" ++ toString pt ++ " " ++ cc.1 ++ "/" ++ cc.2 ++ "\r\n"

/-- The fixed SDP header written before the per-track lines. -/
def sdpHeader : String := "v=0\r\no=- 0 0 IN IP4 127.0.0.1\r\ns=-\r\nt=0 0\r\n"

/-- `buildSDP`: the header followed by one `m=`/`a=rtpmap` pair per track,
accumulated with `s +=` over the track list. -/
def buildSDP (tracks : List TrackInfo) (videoPort audioPort : Nat) : String :=
  tracks.foldl (fun s t => s ++ trackLine t videoPort audioPort) sdpHeader

/-! ## Recording service start (`Service.StartRecording`) -/

/-- Outcomes of the OS calls inside `StartRecording`: `os.WriteFile` on the
SDP file, `cmd.Start` on the ffmpeg child, and the two `net.DialUDP` calls. -/
structure RecOracle where
  writeOk : Bool
  startOk : Bool
  dialVideoOk : Bool
  dialAudioOk : Bool
  deriving DecidableEq, Repr

/-- Recorder service state: the SFU it taps, the files currently on disk, the
per-webinar session map (webinar id to output path), and the running muxer
child processes. -/
structure RecorderState where
  sfu : SfuState
  files : List String
  sessions : List (RoomId × String)
  procs : List Nat
  nextProc : Nat
  deriving DecidableEq, Repr

/-- `{outputDir}/recordings/{recordingID}.sdp`. -/
def sdpPathOf (outputDir recId : String) : String :=
  outputDir ++ "/recordings/" ++ recId ++ ".sdp"

/-- `{outputDir}/recordings/{recordingID}.mp4`. -/
def outputPathOf (outputDir recId : String) : String :=
  outputDir ++ "/recordings/" ++ recId ++ ".mp4"

/-- Remove a path from the disk model (`os.Remove`). -/
def removeFile (p : String) (files : List String) : List String :=
  files.filter (fun f => decide (f ≠ p))

/-- `Service.StartRecording`: fail if the room has no publisher tracks; write
the SDP file (failure: nothing happens); start ffmpeg (failure: remove the SDP
file); dial the two UDP connections (failure: kill ffmpeg, remove the SDP
file); on success register the sink with the SFU and store the session.
Returns the new state and `some outputPath` on success, `none` on error. -/
def startRecording (outputDir : String) (rid : RoomId) (recId : String)
    (o : RecOracle) (st : RecorderState) : RecorderState × Option String :=
  let tracks := getTrackInfo rid st.sfu
  if tracks = [] then (st, none)
  else
    let sdpPath := sdpPathOf outputDir recId
    let outPath := outputPathOf outputDir recId
    if o.writeOk = false then (st, none)
    else
      let st1 := { st with files := sdpPath :: st.files }
      if o.startOk = false then
        ({ st1 with files := removeFile sdpPath st1.files }, none)
      else
        let pid := st1.nextProc
        let st2 := { st1 with procs := pid :: st1.procs, nextProc := pid + 1 }
        if o.dialVideoOk = false ∨ o.dialAudioOk = false then
          ({ st2 with procs := st2.procs.filter (fun p => decide (p ≠ pid)),
                      files := removeFile sdpPath st2.files }, none)
        else
          let st3 := { st2 with sfu := registerRecordingSink rid st2.sfu,
                                sessions := aupsert rid outPath st2.sessions }
          (st3, some outPath)

/-- Whether a room currently has a recording sink registered in the SFU. -/
def roomSink (st : SfuState) (rid : RoomId) : Bool :=
  match alookup rid st.rooms with
  | some r => r.recordingSink
  | none => false

/-! ## Claim theorems -/

set_option maxRecDepth 8192

/-- C10: for every input packet shorter than 2 bytes, `Sink.WriteRTP` is a
total no-op: the session is unchanged and nothing is sent on either UDP
connection. -/
theorem writeRTP_short_noop (conns : SinkConns) (kind : RTPKind)
    (packet : List Nat) (h : packet.length < 2) :
    writeRTP conns kind packet = (conns, none) := by
  simp [writeRTP, h]

/-- Witness for C10 at a one-byte packet. -/
theorem writeRTP_short_noop_witness :
    ([(5 : Nat)].length < 2) ∧
      writeRTP ⟨true, true⟩ RTPKind.video [5] = (⟨true, true⟩, none) :=
  ⟨by decide, writeRTP_short_noop ⟨true, true⟩ RTPKind.video [5] (by decide)⟩

theorem rewriteByte_mod (pt : Nat) (hpt : pt = 96 ∨ pt = 97) :
    ∀ b, b < 256 → Nat.lor (Nat.land b 128) pt % 128 = pt ∧
      Nat.lor (Nat.land b 128) pt / 128 = b / 128 := by
  rcases hpt with h | h <;> subst h <;> decide

/-- C7: for packets of length at least 2 with byte values, `Sink.WriteRTP`
sends on the UDP connection matching the kind a copy of the packet whose
second byte has its lower 7 bits (payload type) replaced by 96 for video and
97 for audio, with the top (marker) bit of that byte and every other byte
preserved. -/
theorem writeRTP_rewrites (conns : SinkConns) (kind : RTPKind)
    (packet : List Nat) (h2 : 2 ≤ packet.length) (hb : ∀ b ∈ packet, b < 256)
    (hv : kind = RTPKind.video → conns.videoConn = true)
    (ha : kind = RTPKind.audio → conns.audioConn = true)
    (hk : kind = RTPKind.video ∨ kind = RTPKind.audio) :
    ∃ out,
      writeRTP conns kind packet =
        (conns, some
          ((if kind = RTPKind.video then ConnKind.video else ConnKind.audio), out)) ∧
      out.length = packet.length ∧
      out.getD 1 0 % 128 =
        (if kind = RTPKind.audio then payloadTypeAudio else payloadTypeVideo) ∧
      out.getD 1 0 / 128 = packet.getD 1 0 / 128 ∧
      (∀ i, i ≠ 1 → out.getD i 0 = packet.getD i 0) := by
  have hlt : ¬ packet.length < 2 := by omega
  have h1 : 1 < packet.length := by omega
  have hsome : packet[1]? = some packet[1] := List.getElem?_eq_getElem h1
  have hmem : packet[1] ∈ packet := List.getElem?_mem hsome
  have hb1 : packet[1] < 256 := hb _ hmem
  set b1 := Nat.lor (Nat.land (packet.getD 1 0) 128)
      (if kind = RTPKind.audio then payloadTypeAudio else payloadTypeVideo) with hb1def
  refine ⟨packet.set 1 b1, ?_, ?_, ?_, ?_, ?_⟩
  · rcases hk with h | h <;> subst h
    · simp [writeRTP, hlt, hv rfl, hb1def]
    · simp [writeRTP, hlt, ha rfl, hb1def]
  · exact List.length_set ..
  · have hget : (packet.set 1 b1).getD 1 0 = b1 := by
      have := List.getElem?_set_eq_of_lt b1 h1 (l := packet)
      simp [List.getD_eq_getElem?_getD, this]
    rw [hget, hb1def]
    have hgd : packet.getD 1 0 = packet[1] := by
      simp [List.getD_eq_getElem?_getD, hsome]
    rw [hgd]
    have hpt : (if kind = RTPKind.audio then payloadTypeAudio else payloadTypeVideo) = 96 ∨
        (if kind = RTPKind.audio then payloadTypeAudio else payloadTypeVideo) = 97 := by
      by_cases h : kind = RTPKind.audio <;> simp [h, payloadTypeVideo, payloadTypeAudio]
    exact (rewriteByte_mod _ hpt packet[1] hb1).1
  · have hget : (packet.set 1 b1).getD 1 0 = b1 := by
      have := List.getElem?_set_eq_of_lt b1 h1 (l := packet)
      simp [List.getD_eq_getElem?_getD, this]
    rw [hget, hb1def]
    have hgd : packet.getD 1 0 = packet[1] := by
      simp [List.getD_eq_getElem?_getD, hsome]
    rw [hgd]
    have hpt : (if kind = RTPKind.audio then payloadTypeAudio else payloadTypeVideo) = 96 ∨
        (if kind = RTPKind.audio then payloadTypeAudio else payloadTypeVideo) = 97 := by
      by_cases h : kind = RTPKind.audio <;> simp [h, payloadTypeVideo, payloadTypeAudio]
    exact (rewriteByte_mod _ hpt packet[1] hb1).2
  · intro i hi
    have : (packet.set 1 b1)[i]? = packet[i]? :=
      List.getElem?_set_ne (fun hc => hi hc.symm)
    simp [List.getD_eq_getElem?_getD, this]

/-- Witness for C7: a concrete video packet `[128, 200, 7]` is rewritten to
`[128, 224, 7]` and sent on the video connection. -/
theorem writeRTP_rewrites_witness :
    (2 ≤ ([(128 : Nat), 200, 7]).length) ∧
      ∃ out,
        writeRTP ⟨true, true⟩ RTPKind.video [128, 200, 7] =
          (⟨true, true⟩, some
            ((if RTPKind.video = RTPKind.video then ConnKind.video else ConnKind.audio),
              out)) ∧
        out.length = ([(128 : Nat), 200, 7]).length ∧
        out.getD 1 0 % 128 =
          (if RTPKind.video = RTPKind.audio then payloadTypeAudio else payloadTypeVideo) ∧
        out.getD 1 0 / 128 = ([(128 : Nat), 200, 7]).getD 1 0 / 128 ∧
        (∀ i, i ≠ 1 → out.getD i 0 = ([(128 : Nat), 200, 7]).getD i 0) :=
  ⟨by decide,
    writeRTP_rewrites ⟨true, true⟩ RTPKind.video [128, 200, 7] (by decide)
      (by decide) (fun _ => rfl) (fun h => by cases h) (Or.inl rfl)⟩

/-- C6: a failed upload job is re-enqueued with its attempt counter
incremented by exactly 1 while below the `MaxRetries` bound of 3; the failure
that brings the attempt counter to 3 pushes the job onto the dead-letter
queue instead; a successful job is re-pushed to neither queue.  A fresh job
(attempt 0) that fails three times in a row therefore ends on the DLQ with
attempt 3 and leaves the recordings queue empty. -/
theorem upload_retry_bound (j : Job) (st : QState) :
    (j.attempt + 1 < MaxRetries →
      workerStep false j st =
        { st with recQ := st.recQ ++ [{ j with attempt := j.attempt + 1 }] }) ∧
    (MaxRetries ≤ j.attempt + 1 →
      workerStep false j st =
        { st with dlq := st.dlq ++ [{ j with attempt := j.attempt + 1 }] }) ∧
    workerStep true j st = st ∧
    (let s1 := workerStep false { id := j.id, attempt := 0 } { recQ := [], dlq := [] }
     let d1 := dequeueJob s1
     s1.recQ = [{ id := j.id, attempt := 1 }] ∧ s1.dlq = [] ∧
     (∀ j1, d1.1 = some j1 →
       let s2 := workerStep false j1 d1.2
       let d2 := dequeueJob s2
       s2.recQ = [{ id := j.id, attempt := 2 }] ∧ s2.dlq = [] ∧
       (∀ j2, d2.1 = some j2 →
         let s3 := workerStep false j2 d2.2
         s3.recQ = [] ∧ s3.dlq = [{ id := j.id, attempt := 3 }]))) := by
  refine ⟨?_, ?_, ?_, ?_⟩
  · intro h
    have : ¬ j.attempt + 1 ≥ MaxRetries := by omega
    simp [workerStep, queueRetry, this]
  · intro h
    simp [workerStep, queueRetry, h]
  · rfl
  · refine ⟨rfl, rfl, ?_⟩
    intro j1 h1
    have hj1 : j1 = { id := j.id, attempt := 1 } :=
      (by simpa [workerStep, queueRetry, MaxRetries, dequeueJob] using h1 :
        ({ id := j.id, attempt := 1 : Job } = j1)).symm
    subst hj1
    refine ⟨rfl, rfl, ?_⟩
    intro j2 h2
    have hj2 : j2 = { id := j.id, attempt := 2 } :=
      (by simpa [workerStep, queueRetry, MaxRetries, dequeueJob] using h2 :
        ({ id := j.id, attempt := 2 : Job } = j2)).symm
    subst hj2
    constructor <;> rfl

/-- Witness for C6 at a concrete job. -/
theorem upload_retry_bound_witness :
    ({ id := "job", attempt := 0 : Job }.attempt + 1 < MaxRetries) ∧
      workerStep false { id := "job", attempt := 0 } { recQ := [], dlq := [] } =
        { recQ := [{ id := "job", attempt := 1 }], dlq := [] } :=
  ⟨by decide,
    (upload_retry_bound { id := "job", attempt := 0 } { recQ := [], dlq := [] }).1
      (by decide)⟩

/-- The outbound queue of one client, as the Hub sees it. -/
def clientQueue (rid : RoomId) (cid : ClientId) (st : HubState) :
    Option (List WSMsg) :=
  match alookup rid st.webinars with
  | some m => alookup cid m
  | none => none

theorem alookup_map_snd {α β γ : Type} [DecidableEq α] (k : α) (g : α → β → γ)
    (l : List (α × β)) :
    alookup k (l.map fun p => (p.1, g p.1 p.2)) = (alookup k l).map (g k) := by
  induction l with
  | nil => rfl
  | cons p rest ih =>
    by_cases h : p.1 = k
    · subst h
      simp [alookup]
    · simp [alookup, h, ih]

theorem clientQueue_broadcast (rid : RoomId) (cid : ClientId) (ev data : String)
    (st : HubState) (q : List WSMsg) (hq : clientQueue rid cid st = some q) :
    clientQueue rid cid (broadcastToWebinar rid ev data st) =
      some (if q.length < sendQueueCap then q ++ [WSMsg.mk ev data] else q) := by
  unfold clientQueue at hq
  unfold clientQueue broadcastToWebinar
  cases hm : alookup rid st.webinars with
  | none => rw [hm] at hq; cases hq
  | some m =>
    rw [hm] at hq
    dsimp only at hq
    dsimp only
    rw [alookup_aupsert_self]
    have h2 := alookup_map_snd cid
      (fun (_ : ClientId) (v : List WSMsg) =>
        if v.length < sendQueueCap then v ++ [WSMsg.mk ev data] else v) m
    dsimp only
    rw [h2, hq]
    rfl

/-- C5: with the Redis publisher configured, `Hub.PublishToWebinarOnly`
publishes the event on the bus and enqueues nothing on any local client's
outbound queue, while `Hub.BroadcastToWebinarAndPublish` both appends the
message to every non-full local queue and publishes on the bus; without the
publisher, `PublishToWebinarOnly` falls back to the local broadcast.  On the
same input the two operations give a client with queue space different
queues, so they are not interchangeable. -/
theorem publishOnly_vs_broadcastAndPublish (rid : RoomId) (ev data : String)
    (st : HubState) (cid : ClientId) (q : List WSMsg)
    (hq : clientQueue rid cid st = some q) (hlen : q.length < sendQueueCap) :
    (publishToWebinarOnly true rid ev data st).1 = st ∧
    (publishToWebinarOnly true rid ev data st).2 = [PubEvent.mk rid ev data] ∧
    publishToWebinarOnly false rid ev data st =
      (broadcastToWebinar rid ev data st, []) ∧
    (broadcastToWebinarAndPublish true rid ev data st).1 =
      broadcastToWebinar rid ev data st ∧
    (broadcastToWebinarAndPublish true rid ev data st).2 =
      [PubEvent.mk rid ev data] ∧
    clientQueue rid cid (publishToWebinarOnly true rid ev data st).1 = some q ∧
    clientQueue rid cid (broadcastToWebinarAndPublish true rid ev data st).1 =
      some (q ++ [WSMsg.mk ev data]) ∧
    clientQueue rid cid (broadcastToWebinarAndPublish true rid ev data st).1 ≠
      clientQueue rid cid (publishToWebinarOnly true rid ev data st).1 := by
  have hb : clientQueue rid cid (broadcastToWebinar rid ev data st) =
      some (q ++ [WSMsg.mk ev data]) := by
    rw [clientQueue_broadcast rid cid ev data st q hq, if_pos hlen]
  refine ⟨rfl, rfl, rfl, rfl, rfl, hq, hb, ?_⟩
  show clientQueue rid cid (broadcastToWebinar rid ev data st) ≠
    clientQueue rid cid st
  rw [hb, hq]
  intro hc
  have := Option.some.inj hc
  have hlen2 : (q ++ [WSMsg.mk ev data]).length = q.length := by rw [this]
  simp at hlen2

/-- Witness for C5: one client with an empty queue in room 0. -/
theorem publishOnly_vs_broadcastAndPublish_witness :
    (clientQueue 0 "c" (hubRegister true true 0 "c" initHub) = some []) ∧
      (publishToWebinarOnly true 0 "chat_message" "hi"
          (hubRegister true true 0 "c" initHub)).1 =
        hubRegister true true 0 "c" initHub ∧
      clientQueue 0 "c" (broadcastToWebinarAndPublish true 0 "chat_message" "hi"
          (hubRegister true true 0 "c" initHub)).1 =
        some ([] ++ [WSMsg.mk "chat_message" "hi"]) :=
  ⟨by decide,
    (publishOnly_vs_broadcastAndPublish 0 "chat_message" "hi"
        (hubRegister true true 0 "c" initHub) "c" [] (by decide) (by decide)).1,
    ((publishOnly_vs_broadcastAndPublish 0 "chat_message" "hi"
        (hubRegister true true 0 "c" initHub) "c" [] (by decide) (by decide)).2.2.2.2.2.2).1⟩

/-- The codec name / clock rate table of the claim: VP8, VP9 and H264 at
90000 Hz, opus at 48000 Hz, PCMU at 8000 Hz, keyed by the track's mime type. -/
def specCodecClock (mime : String) : Option (String × String) :=
  if mime = "video/VP8" ∨ mime = "video/vp8" then some ("VP8", "90000")
  else if mime = "video/VP9" ∨ mime = "video/vp9" then some ("VP9", "90000")
  else if mime = "video/H264" ∨ mime = "video/h264" then some ("H264", "90000")
  else if mime = "audio/opus" ∨ mime = "audio/OPUS" then some ("opus", "48000")
  else if mime = "audio/PCMU" then some ("PCMU", "8000")
  else none

/-- A track is recognized when its kind matches the family of its mime type
and the mime type is in the claim's table. -/
def recognizedTrack (t : TrackInfo) : Prop :=
  (t.kind = RTPKind.video ∧
    (t.mimeType = "video/VP8" ∨ t.mimeType = "video/vp8" ∨
     t.mimeType = "video/VP9" ∨ t.mimeType = "video/vp9" ∨
     t.mimeType = "video/H264" ∨ t.mimeType = "video/h264")) ∨
  (t.kind = RTPKind.audio ∧
    (t.mimeType = "audio/opus" ∨ t.mimeType = "audio/OPUS" ∨
     t.mimeType = "audio/PCMU"))

/-- The claim's per-track SDP fragment: `m=` line with the video port and
payload type 96 for a video track, the audio port and payload type 97 for an
audio track, and an `a=rtpmap` line with the table's codec name and clock
rate. -/
def specTrackLine (t : TrackInfo) (videoPort audioPort : Nat) : String :=
  let port := if t.kind = RTPKind.video then videoPort else audioPort
  let pt := if t.kind = RTPKind.video then 96 else 97
  let media := if t.kind = RTPKind.video then "video" else "audio"
  let cc := (specCodecClock t.mimeType).getD ("", "")
  "m=" ++ media ++ " " ++ toString port ++ " RTP/AVP " ++ toString pt ++
    "\r\n" ++ "a=rtpmap:" ++ toString pt ++ " " ++ cc.1 ++ "/" ++ cc.2 ++ "\r\n"

theorem trackLine_eq_spec (t : TrackInfo) (videoPort audioPort : Nat)
    (h : recognizedTrack t) :
    trackLine t videoPort audioPort = specTrackLine t videoPort audioPort := by
  rcases h with ⟨hk, hm⟩ | ⟨hk, hm⟩
  · rcases hm with hm | hm | hm | hm | hm | hm <;>
      simp [trackLine, specTrackLine, specCodecClock, hk, hm, payloadTypeVideo,
        payloadTypeAudio]
  · rcases hm with hm | hm | hm <;>
      simp [trackLine, specTrackLine, specCodecClock, hk, hm, payloadTypeVideo,
        payloadTypeAudio]

theorem string_foldl_append (l : List String) :
    ∀ s : String, l.foldl (· ++ ·) s = s ++ String.join l := by
  induction l with
  | nil => intro s; simp [String.join, String.append_empty]
  | cons a rest ih =>
    intro s
    have hj : String.join (a :: rest) = a ++ String.join rest := by
      show (a :: rest).foldl (· ++ ·) "" = a ++ String.join rest
      rw [List.foldl_cons, ih ("" ++ a), String.empty_append]
    rw [List.foldl_cons, ih (s ++ a), hj, String.append_assoc]

theorem foldl_append_string {α : Type} (f : α → String) (l : List α)
    (s : String) : l.foldl (fun acc x => acc ++ f x) s = s ++ String.join (l.map f) := by
  rw [← List.foldl_map, string_foldl_append]

/-- C8: for every track list whose tracks carry a recognized kind/mime-type
combination, `buildSDP` emits the fixed header followed by exactly one
`m=`/`a=rtpmap` fragment per track, with the video port and payload type 96
for video tracks, the audio port and payload type 97 for audio tracks, and
the codec name and clock rate from the claim's table (VP8/VP9/H264 at 90000,
opus at 48000, PCMU at 8000). -/
theorem buildSDP_spec (tracks : List TrackInfo) (videoPort audioPort : Nat)
    (h : ∀ t ∈ tracks, recognizedTrack t) :
    buildSDP tracks videoPort audioPort =
      sdpHeader ++ String.join (tracks.map fun t => specTrackLine t videoPort audioPort) := by
  unfold buildSDP
  rw [foldl_append_string (fun t => trackLine t videoPort audioPort) tracks sdpHeader]
  have : tracks.map (fun t => trackLine t videoPort audioPort) =
      tracks.map (fun t => specTrackLine t videoPort audioPort) := by
    apply List.map_congr_left
    intro t ht
    exact trackLine_eq_spec t videoPort audioPort (h t ht)
  rw [this]

/-- Witness for C8: one VP8 video track and one opus audio track. -/
theorem buildSDP_spec_witness :
    (∀ t ∈ [TrackInfo.mk RTPKind.video "video/VP8" 90000,
            TrackInfo.mk RTPKind.audio "audio/opus" 48000], recognizedTrack t) ∧
      buildSDP [TrackInfo.mk RTPKind.video "video/VP8" 90000,
                TrackInfo.mk RTPKind.audio "audio/opus" 48000] 5000 5002 =
        sdpHeader ++ String.join
          ([TrackInfo.mk RTPKind.video "video/VP8" 90000,
            TrackInfo.mk RTPKind.audio "audio/opus" 48000].map
            fun t => specTrackLine t 5000 5002) :=
  ⟨by simp [recognizedTrack],
    buildSDP_spec _ 5000 5002 (by simp [recognizedTrack])⟩

theorem subStep_fold (pc : PC) (ts : List RelayTrack) :
    ∀ (done : List RelayTrack) (pcT : List (PC × List LocalTrack)),
      ts.foldl (subStep pc) (done, pcT, ([] : List Bool)) =
        (done ++ ts.map
            (fun relay => { relay with locals := relay.locals ++ [mkLocal relay.remote] }),
          ts.foldl (fun acc relay => addTrack pc (mkLocal relay.remote) acc) pcT,
          ([] : List Bool)) := by
  induction ts with
  | nil => intro done pcT; simp
  | cons t rest ih =>
    intro done pcT
    rw [List.foldl_cons]
    have hstep : subStep pc (done, pcT, ([] : List Bool)) t =
        (done ++ [{ t with locals := t.locals ++ [mkLocal t.remote] }],
          addTrack pc (mkLocal t.remote) pcT, ([] : List Bool)) := by
      simp [subStep]
    rw [hstep, ih, List.foldl_cons]
    simp

theorem alookup_addTrack_self (pc : PC) (l : LocalTrack)
    (pcT : List (PC × List LocalTrack)) :
    alookup pc (addTrack pc l pcT) = some ((alookup pc pcT).getD [] ++ [l]) := by
  unfold addTrack
  cases h : alookup pc pcT <;> simp [h, alookup_aupsert_self]

theorem alookup_addTrack_fold (pc : PC) (ts : List RelayTrack) :
    ∀ (pcT : List (PC × List LocalTrack)) (ls : List LocalTrack),
      alookup pc pcT = some ls →
      alookup pc (ts.foldl (fun acc relay => addTrack pc (mkLocal relay.remote) acc) pcT) =
        some (ls ++ ts.map fun relay => mkLocal relay.remote) := by
  induction ts with
  | nil => intro pcT ls h; simpa using h
  | cons t rest ih =>
    intro pcT ls h
    rw [List.foldl_cons]
    have h1 : alookup pc (addTrack pc (mkLocal t.remote) pcT) =
        some (ls ++ [mkLocal t.remote]) := by
      rw [alookup_addTrack_self, h]
      rfl
    rw [ih _ _ h1]
    simp

theorem alookup_addTrack_fold_fresh (pc : PC) (ts : List RelayTrack)
    (pcT : List (PC × List LocalTrack)) (hfresh : alookup pc pcT = none)
    (hne : ts ≠ []) :
    alookup pc (ts.foldl (fun acc relay => addTrack pc (mkLocal relay.remote) acc) pcT) =
      some (ts.map fun relay => mkLocal relay.remote) := by
  cases ts with
  | nil => cases hne rfl
  | cons t rest =>
    rw [List.foldl_cons]
    have h1 : alookup pc (addTrack pc (mkLocal t.remote) pcT) =
        some [mkLocal t.remote] := by
      rw [alookup_addTrack_self, hfresh]
      rfl
    rw [alookup_addTrack_fold pc rest _ _ h1]
    simp

/-- Tracks after a subscriber was attached: one fresh local per relay. -/
def mapRelays (ts : List RelayTrack) : List RelayTrack :=
  ts.map fun relay => { relay with locals := relay.locals ++ [mkLocal relay.remote] }

/-- The `AddTrack` calls of the subscribe loop, folded over the tracks. -/
def foldAddTracks (pc : PC) (ts : List RelayTrack)
    (pcT : List (PC × List LocalTrack)) : List (PC × List LocalTrack) :=
  ts.foldl (fun acc relay => addTrack pc (mkLocal relay.remote) acc) pcT

/-- The state produced by a fully successful `HandleSubscribe`. -/
def subscribeSuccessState (rid : RoomId) (cid : ClientId) (st : SfuState)
    (r : SfuRoom) : SfuState :=
  let st1 := setRoom st rid { r with tracks := mapRelays r.tracks }
  let st2 := { st1 with nextPC := st.nextPC + 1,
                        pcTracks := foldAddTracks st.nextPC r.tracks st.pcTracks }
  setRoom st2 rid { r with tracks := mapRelays r.tracks,
                           subscribers := aupsert cid st.nextPC r.subscribers }

theorem handleSubscribe_success (rid : RoomId) (cid : ClientId) (o : NegOracle)
    (st : SfuState) (hme : o.mediaEngineOk = true) (hnp : o.newPCOk = true)
    (hco : o.createOfferOk = true) (hsl : o.setLocalOk = true)
    (hlo : o.localOk = []) (r : SfuRoom) (hr : alookup rid st.rooms = some r)
    (hpub : r.publisher ≠ none) (htr : r.tracks ≠ []) :
    handleSubscribe rid cid o st =
      ⟨subscribeSuccessState rid cid st r,
        [("webrtc_subscriber_offer", Payload.sdpPayload "offer" o.sdpOut)],
        false⟩ := by
  have hcond : ¬ (r.publisher = none ∨ r.tracks = []) := by
    intro hc
    rcases hc with hc | hc
    · exact hpub hc
    · exact htr hc
  unfold handleSubscribe
  rw [hr]
  simp only [if_neg hcond, hme, hnp, hco, hsl, hlo, Bool.true_eq_false, if_false,
    subStep_fold, List.nil_append]
  rfl

/-- C3: `SFU.HandleSubscribe` sends `webrtc_error` with message `no_stream`
and leaves the state untouched when the room does not exist, has no publisher
or has an empty track list; otherwise (with the WebRTC calls succeeding) it
creates a subscriber PC carrying exactly one local forwarding track per
current relay track — each built from the relay's remote track via
`mkLocal` and also appended to that relay's `locals` list — inserts the
subscriber keyed by client id, and sends `webrtc_subscriber_offer`. -/
theorem handleSubscribe_spec (rid : RoomId) (cid : ClientId) (o : NegOracle)
    (st : SfuState) (hme : o.mediaEngineOk = true) (hnp : o.newPCOk = true)
    (hco : o.createOfferOk = true) (hsl : o.setLocalOk = true)
    (hlo : o.localOk = []) (hfresh : alookup st.nextPC st.pcTracks = none) :
    ((alookup rid st.rooms = none ∨ roomPublisher st rid = none ∨
        roomTracks st rid = some []) →
      handleSubscribe rid cid o st =
        ⟨st, [("webrtc_error", Payload.errMsg "no_stream")], false⟩) ∧
    (∀ r, alookup rid st.rooms = some r → r.publisher ≠ none → r.tracks ≠ [] →
      (handleSubscribe rid cid o st).err = false ∧
      (handleSubscribe rid cid o st).msgs =
        [("webrtc_subscriber_offer", Payload.sdpPayload "offer" o.sdpOut)] ∧
      (∃ r', alookup rid (handleSubscribe rid cid o st).st.rooms = some r' ∧
        alookup cid r'.subscribers = some st.nextPC ∧
        r'.publisher = r.publisher ∧
        r'.tracks = mapRelays r.tracks) ∧
      alookup st.nextPC (handleSubscribe rid cid o st).st.pcTracks =
        some (r.tracks.map fun relay => mkLocal relay.remote)) := by
  constructor
  · intro hcase
    rcases hcase with h | h | h
    · simp [handleSubscribe, h]
    · unfold roomPublisher at h
      cases hr : alookup rid st.rooms with
      | none => simp [handleSubscribe, hr]
      | some r =>
        rw [hr] at h
        simp only at h
        simp [handleSubscribe, hr, h]
    · unfold roomTracks at h
      cases hr : alookup rid st.rooms with
      | none => simp [handleSubscribe, hr]
      | some r =>
        rw [hr] at h
        simp only at h
        have ht : r.tracks = [] := Option.some.inj h
        simp [handleSubscribe, hr, ht]
  · intro r hr hpub htr
    rw [handleSubscribe_success rid cid o st hme hnp hco hsl hlo r hr hpub htr]
    refine ⟨rfl, rfl, ?_, ?_⟩
    · refine ⟨SfuRoom.mk r.publisher (mapRelays r.tracks)
          (aupsert cid st.nextPC r.subscribers) r.recordingSink, ?_, ?_, ?_, ?_⟩
      · show alookup rid (aupsert rid _ _) = _
        rw [alookup_aupsert_self]
      · show alookup cid (aupsert cid st.nextPC r.subscribers) = some st.nextPC
        rw [alookup_aupsert_self]
      · rfl
      · rfl
    · show alookup st.nextPC (foldAddTracks st.nextPC r.tracks st.pcTracks) = _
      exact alookup_addTrack_fold_fresh st.nextPC r.tracks st.pcTracks hfresh htr

/-- Concrete remote track used in the C3 witness. -/
def c3Remote : RemoteTrack :=
  { kind := RTPKind.video, codec := { mimeType := "video/VP8", clockRate := 90000 },
    trackId := "t", streamId := "s" }

/-- Concrete SFU state with one publisher and one relay track. -/
def c3State : SfuState :=
  onTrack 0 c3Remote [] (handlePublisherOffer 0 "speaker" okOracle initSfu).st

/-- Witness for C3 on a room with a publisher and one track. -/
theorem handleSubscribe_spec_witness :
    (alookup 0 c3State.rooms =
      some { publisher := some 0, tracks := [{ remote := c3Remote, locals := [] }],
             subscribers := [], recordingSink := false }) ∧
    (handleSubscribe 0 "c1" okOracle c3State).msgs =
      [("webrtc_subscriber_offer", Payload.sdpPayload "offer" okOracle.sdpOut)] :=
  ⟨by decide,
    ((handleSubscribe_spec 0 "c1" okOracle c3State rfl rfl rfl rfl rfl
        (by decide)).2
      { publisher := some 0, tracks := [{ remote := c3Remote, locals := [] }],
        subscribers := [], recordingSink := false }
      (by decide) (by decide) (by decide)).2.1⟩

theorem pubOffer_failure (rid : RoomId) (role : String) (o : NegOracle)
    (st : SfuState) (hrole : role = "speaker" ∨ role = "admin")
    (hme : o.mediaEngineOk = true) (hnp : o.newPCOk = true)
    (hfail : (o.setRemoteOk && o.createAnswerOk && o.setLocalOk) = false) :
    (handlePublisherOffer rid role o st).err = true ∧
    st.nextPC ∈ (handlePublisherOffer rid role o st).st.closed ∧
    roomPublisher (handlePublisherOffer rid role o st).st rid = none ∧
    (handlePublisherOffer rid role o st).msgs = [] := by
  have hnot : ¬ (role ≠ "speaker" ∧ role ≠ "admin") := by
    rcases hrole with h | h <;> simp [h]
  unfold handlePublisherOffer
  rw [if_neg hnot]
  cases hroom : alookup rid st.rooms with
  | some r =>
    cases hpub : r.publisher with
    | some p =>
      cases hsr : o.setRemoteOk with
      | false =>
        simp [getOrCreateRoom, hroom, hpub, hme, hnp, hsr, setRoom, roomPublisher,
          alookup_aupsert_self]
      | true =>
        cases hca : o.createAnswerOk with
        | false =>
          simp [getOrCreateRoom, hroom, hpub, hme, hnp, hsr, hca, setRoom,
            roomPublisher, alookup_aupsert_self]
        | true =>
          cases hsl : o.setLocalOk with
          | false =>
            simp [getOrCreateRoom, hroom, hpub, hme, hnp, hsr, hca, hsl, setRoom,
              roomPublisher, alookup_aupsert_self]
          | true => rw [hsr, hca, hsl] at hfail; cases hfail
    | none =>
      cases hsr : o.setRemoteOk with
      | false =>
        simp [getOrCreateRoom, hroom, hpub, hme, hnp, hsr, setRoom, roomPublisher,
          alookup_aupsert_self]
      | true =>
        cases hca : o.createAnswerOk with
        | false =>
          simp [getOrCreateRoom, hroom, hpub, hme, hnp, hsr, hca, setRoom,
            roomPublisher, alookup_aupsert_self]
        | true =>
          cases hsl : o.setLocalOk with
          | false =>
            simp [getOrCreateRoom, hroom, hpub, hme, hnp, hsr, hca, hsl, setRoom,
              roomPublisher, alookup_aupsert_self]
          | true => rw [hsr, hca, hsl] at hfail; cases hfail
  | none =>
    cases hsr : o.setRemoteOk with
    | false =>
      simp [getOrCreateRoom, hroom, emptySfuRoom, hme, hnp, hsr, setRoom,
        roomPublisher, alookup_aupsert_self]
    | true =>
      cases hca : o.createAnswerOk with
      | false =>
        simp [getOrCreateRoom, hroom, emptySfuRoom, hme, hnp, hsr, hca, setRoom,
          roomPublisher, alookup_aupsert_self]
      | true =>
        cases hsl : o.setLocalOk with
        | false =>
          simp [getOrCreateRoom, hroom, emptySfuRoom, hme, hnp, hsr, hca, hsl,
            setRoom, roomPublisher, alookup_aupsert_self]
        | true => rw [hsr, hca, hsl] at hfail; cases hfail

theorem subscribe_failure (rid : RoomId) (cid : ClientId) (o : NegOracle)
    (st : SfuState) (r : SfuRoom) (hr : alookup rid st.rooms = some r)
    (hpub : r.publisher ≠ none) (htr : r.tracks ≠ [])
    (hme : o.mediaEngineOk = true) (hnp : o.newPCOk = true)
    (hfail : (o.createOfferOk && o.setLocalOk) = false) :
    (handleSubscribe rid cid o st).err = true ∧
    st.nextPC ∈ (handleSubscribe rid cid o st).st.closed ∧
    (∃ r', alookup rid (handleSubscribe rid cid o st).st.rooms = some r' ∧
      r'.subscribers = r.subscribers) ∧
    (handleSubscribe rid cid o st).msgs = [] := by
  have hcond : ¬ (r.publisher = none ∨ r.tracks = []) := by
    intro hc
    rcases hc with hc | hc
    · exact hpub hc
    · exact htr hc
  unfold handleSubscribe
  rw [hr]
  cases hco : o.createOfferOk with
  | false =>
    simp [if_neg hcond, hme, hnp, hco, setRoom, alookup_aupsert_self]
  | true =>
    cases hsl : o.setLocalOk with
    | false =>
      simp [if_neg hcond, hme, hnp, hco, hsl, setRoom, alookup_aupsert_self]
    | true => rw [hco, hsl] at hfail; cases hfail

/-- C2 (amended): when an SDP apply step fails during negotiation — in the
publisher flow (`SetRemoteDescription`, `CreateAnswer`, `SetLocalDescription`)
or in the subscriber flow (`CreateOffer`, `SetLocalDescription`) — the
offending peer connection is closed, the room's publisher/subscriber slot is
left free, and the handler returns the error to its caller; however, NO
`webrtc_error` message is sent to the initiating client (the read loop
discards the returned error). -/
theorem negotiation_failure_amended :
    (∀ (rid : RoomId) (role : String) (o : NegOracle) (st : SfuState),
      (role = "speaker" ∨ role = "admin") → o.mediaEngineOk = true →
      o.newPCOk = true → (o.setRemoteOk && o.createAnswerOk && o.setLocalOk) = false →
      (handlePublisherOffer rid role o st).err = true ∧
      st.nextPC ∈ (handlePublisherOffer rid role o st).st.closed ∧
      roomPublisher (handlePublisherOffer rid role o st).st rid = none ∧
      (handlePublisherOffer rid role o st).msgs = []) ∧
    (∀ (rid : RoomId) (cid : ClientId) (o : NegOracle) (st : SfuState) (r : SfuRoom),
      alookup rid st.rooms = some r → r.publisher ≠ none → r.tracks ≠ [] →
      o.mediaEngineOk = true → o.newPCOk = true →
      (o.createOfferOk && o.setLocalOk) = false →
      (handleSubscribe rid cid o st).err = true ∧
      st.nextPC ∈ (handleSubscribe rid cid o st).st.closed ∧
      (∃ r', alookup rid (handleSubscribe rid cid o st).st.rooms = some r' ∧
        r'.subscribers = r.subscribers) ∧
      (handleSubscribe rid cid o st).msgs = []) :=
  ⟨fun rid role o st hrole hme hnp hfail =>
      pubOffer_failure rid role o st hrole hme hnp hfail,
    fun rid cid o st r hr hpub htr hme hnp hfail =>
      subscribe_failure rid cid o st r hr hpub htr hme hnp hfail⟩

/-- Witness for the amended C2: a failing `SetRemoteDescription` on a fresh
room closes the new PC, leaves the publisher slot empty and sends nothing. -/
theorem negotiation_failure_amended_witness :
    (({ okOracle with setRemoteOk := false } : NegOracle).setRemoteOk &&
      ({ okOracle with setRemoteOk := false } : NegOracle).createAnswerOk &&
      ({ okOracle with setRemoteOk := false } : NegOracle).setLocalOk) = false ∧
    (handlePublisherOffer 0 "speaker" { okOracle with setRemoteOk := false }
        initSfu).err = true ∧
    initSfu.nextPC ∈ (handlePublisherOffer 0 "speaker"
        { okOracle with setRemoteOk := false } initSfu).st.closed ∧
    roomPublisher (handlePublisherOffer 0 "speaker"
        { okOracle with setRemoteOk := false } initSfu).st 0 = none ∧
    (handlePublisherOffer 0 "speaker" { okOracle with setRemoteOk := false }
        initSfu).msgs = [] :=
  ⟨by decide,
    negotiation_failure_amended.1 0 "speaker" { okOracle with setRemoteOk := false }
      initSfu (Or.inl rfl) rfl rfl (by decide)⟩

/-- Counterexample for C2 as stated: with a publisher present and
`SetRemoteDescription` failing, the handler returns an error but sends NO
message at all — in particular the initiating client is never sent
`webrtc_error {"message": reason}`. -/
theorem negotiation_failure_counterexample :
    (handlePublisherOffer 0 "speaker" { okOracle with setRemoteOk := false }
        (handlePublisherOffer 0 "speaker" okOracle initSfu).st).err = true ∧
    (handlePublisherOffer 0 "speaker" { okOracle with setRemoteOk := false }
        (handlePublisherOffer 0 "speaker" okOracle initSfu).st).msgs = [] ∧
    ¬ ∃ reason, ("webrtc_error", Payload.errMsg reason) ∈
        (handlePublisherOffer 0 "speaker" { okOracle with setRemoteOk := false }
          (handlePublisherOffer 0 "speaker" okOracle initSfu).st).msgs := by
  refine ⟨by decide, by decide, ?_⟩
  intro hex
  rcases hex with ⟨reason, hmem⟩
  have : (handlePublisherOffer 0 "speaker" { okOracle with setRemoteOk := false }
      (handlePublisherOffer 0 "speaker" okOracle initSfu).st).msgs = [] := by decide
  rw [this] at hmem
  cases hmem

/-- Hub room-lifecycle invariant: every present room entry is nonempty, and a
subscription cancel handle is held for a webinar exactly when the room entry
is present. -/
def hubInv (st : HubState) : Prop :=
  (∀ rid m, alookup rid st.webinars = some m → m ≠ []) ∧
  (∀ rid : RoomId, (alookup rid st.subs).isSome = (alookup rid st.webinars).isSome)

theorem hubInv_init : hubInv initHub := by
  unfold hubInv
  exact ⟨(fun _ _ h => nomatch h), fun _ => rfl⟩

theorem hubInv_register (st : HubState) (rid : RoomId) (cid : ClientId)
    (hinv : hubInv st) : hubInv (hubRegister true true rid cid st) := by
  obtain ⟨hne, hiff⟩ := hinv
  unfold hubRegister
  cases hr : alookup rid st.webinars with
  | some m =>
    constructor
    · intro rid' m' hm'
      by_cases h : rid' = rid
      · subst h
        rw [alookup_aupsert_self] at hm'
        cases hm'
        simp [aupsert]
      · rw [alookup_aupsert_ne _ _ h] at hm'
        exact hne rid' m' hm'
    · intro rid'
      by_cases h : rid' = rid
      · subst h
        rw [alookup_aupsert_self]
        have := hiff rid'
        rw [hr] at this
        simpa using this
      · rw [alookup_aupsert_ne _ _ h]
        exact hiff rid'
  | none =>
    constructor
    · intro rid' m' hm'
      by_cases h : rid' = rid
      · subst h
        rw [alookup_aupsert_self] at hm'
        cases hm'
        simp
      · dsimp only at hm'
        rw [alookup_aupsert_ne _ _ h] at hm'
        exact hne rid' m' hm'
    · intro rid'
      by_cases h : rid' = rid
      · subst h
        dsimp only
        rw [alookup_aupsert_self, if_pos ⟨rfl, rfl⟩, alookup_aupsert_self]
        rfl
      · dsimp only
        rw [alookup_aupsert_ne _ _ h, if_pos ⟨rfl, rfl⟩, alookup_aupsert_ne _ _ h]
        exact hiff rid'

theorem hubInv_unregister (st : HubState) (rid : RoomId) (cid : ClientId)
    (hinv : hubInv st) : hubInv (hubUnregister rid cid st) := by
  obtain ⟨hne, hiff⟩ := hinv
  unfold hubUnregister
  cases hr : alookup rid st.webinars with
  | none => exact ⟨hne, hiff⟩
  | some m =>
    dsimp only
    by_cases hm : aerase cid m = []
    · rw [if_pos hm]
      cases hs : alookup rid st.subs with
      | some h =>
        constructor
        · intro rid' m' hm'
          by_cases hrr : rid' = rid
          · subst hrr
            rw [alookup_aerase_self] at hm'
            cases hm'
          · rw [alookup_aerase_ne _ hrr] at hm'
            exact hne rid' m' hm'
        · intro rid'
          by_cases hrr : rid' = rid
          · subst hrr
            rw [alookup_aerase_self, alookup_aerase_self]
            rfl
          · rw [alookup_aerase_ne _ hrr, alookup_aerase_ne _ hrr]
            exact hiff rid'
      | none =>
        have := hiff rid
        rw [hs, hr] at this
        cases this
    · rw [if_neg hm]
      constructor
      · intro rid' m' hm'
        by_cases hrr : rid' = rid
        · subst hrr
          rw [alookup_aupsert_self] at hm'
          cases hm'
          exact hm
        · rw [alookup_aupsert_ne _ _ hrr] at hm'
          exact hne rid' m' hm'
      · intro rid'
        by_cases hrr : rid' = rid
        · subst hrr
          rw [alookup_aupsert_self]
          have := hiff rid'
          rw [hr] at this
          simpa using this
        · rw [alookup_aupsert_ne _ _ hrr]
          exact hiff rid'

theorem hubInv_run (ops : List HubOp) :
    ∀ st : HubState, hubInv st → (∀ op ∈ ops, op.subOkOf = true) →
      hubInv (ops.foldl (applyHubOp true) st) := by
  induction ops with
  | nil => intro st h _; exact h
  | cons op rest ih =>
    intro st h hok
    rw [List.foldl_cons]
    apply ih
    · cases op with
      | reg rid cid subOk =>
        have : subOk = true := hok _ (List.mem_cons_self _ _)
        subst this
        exact hubInv_register st rid cid h
      | unreg rid cid => exact hubInv_unregister st rid cid h
    · intro op' hop'
      exact hok op' (List.mem_cons_of_mem _ hop')

/-- C4: after any sequence of `Register`/`Unregister` calls (with the Redis
subscriber configured and subscriptions succeeding), the Hub's room map has a
key for a webinar iff at least one local client is registered for it (present
entries are nonempty), and a PubSub cancel handle is held iff the room key is
present; moreover `Unregister` of the last client of a room deletes the room
entry and the subscription entry and invokes (records) the cancel handle. -/
theorem hub_room_lifecycle (ops : List HubOp)
    (hok : ∀ op ∈ ops, op.subOkOf = true) :
    hubInv (runHub true ops) ∧
    (∀ (st : HubState) (rid : RoomId) (cid : ClientId) (q : List WSMsg) (h : Nat),
      alookup rid st.webinars = some [(cid, q)] → alookup rid st.subs = some h →
      alookup rid (hubUnregister rid cid st).webinars = none ∧
      alookup rid (hubUnregister rid cid st).subs = none ∧
      h ∈ (hubUnregister rid cid st).cancelled) := by
  constructor
  · exact hubInv_run ops initHub hubInv_init hok
  · intro st rid cid q h hw hs
    unfold hubUnregister
    rw [hw]
    dsimp only
    have hm : aerase cid [(cid, q)] = [] := by
      simp [aerase]
    rw [if_pos hm, hs]
    refine ⟨?_, ?_, ?_⟩
    · exact alookup_aerase_self rid st.webinars
    · exact alookup_aerase_self rid st.subs
    · exact List.mem_cons_self h st.cancelled

/-- Witness for C4: register two clients, unregister one; plus a concrete
last-client unregister run. -/
theorem hub_room_lifecycle_witness :
    (∀ op ∈ [HubOp.reg 0 "a" true, HubOp.reg 0 "b" true, HubOp.unreg 0 "a"],
      op.subOkOf = true) ∧
    hubInv (runHub true [HubOp.reg 0 "a" true, HubOp.reg 0 "b" true,
      HubOp.unreg 0 "a"]) ∧
    alookup 0 (hubUnregister 0 "a" (hubRegister true true 0 "a" initHub)).webinars
      = none :=
  ⟨by decide,
    (hub_room_lifecycle [HubOp.reg 0 "a" true, HubOp.reg 0 "b" true,
      HubOp.unreg 0 "a"] (by decide)).1,
    ((hub_room_lifecycle [] (by decide)).2 (hubRegister true true 0 "a" initHub)
      0 "a" [] 0 (by decide) (by decide)).1⟩

theorem not_mem_removeFile (p : String) (files : List String) :
    p ∉ removeFile p files := by
  intro h
  rw [removeFile, List.mem_filter] at h
  simp at h

theorem getTrackInfo_ne_room (rid : RoomId) (st : SfuState)
    (h : getTrackInfo rid st ≠ []) : ∃ r, alookup rid st.rooms = some r := by
  unfold getTrackInfo at h
  cases hr : alookup rid st.rooms with
  | none => rw [hr] at h; cases h rfl
  | some r => exact ⟨r, rfl⟩

theorem roomSink_register (rid : RoomId) (st : SfuState) (r : SfuRoom)
    (hr : alookup rid st.rooms = some r) :
    roomSink (registerRecordingSink rid st) rid = true := by
  unfold roomSink registerRecordingSink
  rw [hr]
  dsimp only
  show (match alookup rid (aupsert rid { r with recordingSink := true } st.rooms) with
    | some r => r.recordingSink
    | none => false) = true
  rw [alookup_aupsert_self]

theorem filter_aerase_nil {α β : Type} [DecidableEq α] (k : α) (l : List (α × β)) :
    (aerase k l).filter (fun p => decide (p.1 = k)) = [] := by
  induction l with
  | nil => rfl
  | cons p rest ih =>
    by_cases h : p.1 = k
    · rw [aerase_cons_self rest h]
      exact ih
    · rw [aerase_cons_ne rest h, List.filter_cons_of_neg, ih]
      simpa using h

theorem filter_aupsert {α β : Type} [DecidableEq α] (k : α) (v : β)
    (l : List (α × β)) :
    (aupsert k v l).filter (fun p => decide (p.1 = k)) = [(k, v)] := by
  unfold aupsert
  rw [List.filter_cons_of_pos, filter_aerase_nil]
  simp

/-- C9: `Service.StartRecording` fails with no state change when the room has
no publisher tracks or the SDP write fails; on muxer-start or UDP-dial
failure it returns the error leaving the session map and the SFU (hence the
sink) untouched and the SDP scratch file absent from disk; only on success
does it return the output path, register exactly one sink for the room and
store exactly one session for the webinar. -/
theorem startRecording_atomic (outputDir : String) (rid : RoomId)
    (recId : String) (o : RecOracle) (st : RecorderState) :
    (getTrackInfo rid st.sfu = [] →
      startRecording outputDir rid recId o st = (st, none)) ∧
    (getTrackInfo rid st.sfu ≠ [] → o.writeOk = false →
      startRecording outputDir rid recId o st = (st, none)) ∧
    (getTrackInfo rid st.sfu ≠ [] → o.writeOk = true →
      (o.startOk = false ∨ o.dialVideoOk = false ∨ o.dialAudioOk = false) →
      (startRecording outputDir rid recId o st).2 = none ∧
      (startRecording outputDir rid recId o st).1.sessions = st.sessions ∧
      (startRecording outputDir rid recId o st).1.sfu = st.sfu ∧
      sdpPathOf outputDir recId ∉ (startRecording outputDir rid recId o st).1.files) ∧
    (getTrackInfo rid st.sfu ≠ [] → o.writeOk = true → o.startOk = true →
      o.dialVideoOk = true → o.dialAudioOk = true →
      (startRecording outputDir rid recId o st).2 =
        some (outputPathOf outputDir recId) ∧
      roomSink (startRecording outputDir rid recId o st).1.sfu rid = true ∧
      (startRecording outputDir rid recId o st).1.sessions.filter
        (fun p => decide (p.1 = rid)) = [(rid, outputPathOf outputDir recId)]) := by
  refine ⟨?_, ?_, ?_, ?_⟩
  · intro h
    simp [startRecording, h]
  · intro h hw
    simp [startRecording, h, hw]
  · intro h hw hfail
    rcases hfail with hs | hd | hd
    · constructor
      · simp [startRecording, h, hw, hs]
      · refine ⟨by simp [startRecording, h, hw, hs], by simp [startRecording, h, hw, hs], ?_⟩
        simp only [startRecording, h, hw, hs]
        simp only [if_neg h, Bool.true_eq_false, if_false]
        exact not_mem_removeFile _ _
    · cases hso : o.startOk with
      | false =>
        refine ⟨by simp [startRecording, h, hw, hso], by simp [startRecording, h, hw, hso],
          by simp [startRecording, h, hw, hso], ?_⟩
        simp only [startRecording, h, hw, hso]
        simp only [if_neg h, Bool.true_eq_false, if_false]
        exact not_mem_removeFile _ _
      | true =>
        refine ⟨by simp [startRecording, h, hw, hso, hd],
          by simp [startRecording, h, hw, hso, hd],
          by simp [startRecording, h, hw, hso, hd], ?_⟩
        simp only [startRecording, h, hw, hso, hd]
        simp only [if_neg h, Bool.true_eq_false, if_false]
        exact not_mem_removeFile _ _
    · cases hso : o.startOk with
      | false =>
        refine ⟨by simp [startRecording, h, hw, hso], by simp [startRecording, h, hw, hso],
          by simp [startRecording, h, hw, hso], ?_⟩
        simp only [startRecording, h, hw, hso]
        simp only [if_neg h, Bool.true_eq_false, if_false]
        exact not_mem_removeFile _ _
      | true =>
        cases hdv : o.dialVideoOk with
        | false =>
          refine ⟨by simp [startRecording, h, hw, hso, hdv],
            by simp [startRecording, h, hw, hso, hdv],
            by simp [startRecording, h, hw, hso, hdv], ?_⟩
          simp only [startRecording, h, hw, hso, hdv]
          simp only [if_neg h, Bool.true_eq_false, if_false]
          exact not_mem_removeFile _ _
        | true =>
          refine ⟨by simp [startRecording, h, hw, hso, hdv, hd],
            by simp [startRecording, h, hw, hso, hdv, hd],
            by simp [startRecording, h, hw, hso, hdv, hd], ?_⟩
          simp only [startRecording, h, hw, hso, hdv, hd]
          simp only [if_neg h, Bool.true_eq_false, if_false]
          exact not_mem_removeFile _ _
  · intro h hw hso hdv hda
    obtain ⟨r, hr⟩ := getTrackInfo_ne_room rid st.sfu h
    refine ⟨by simp [startRecording, h, hw, hso, hdv, hda], ?_, ?_⟩
    · have : (startRecording outputDir rid recId o st).1.sfu =
          registerRecordingSink rid st.sfu := by
        simp [startRecording, h, hw, hso, hdv, hda]
      rw [this]
      exact roomSink_register rid st.sfu r hr
    · have : (startRecording outputDir rid recId o st).1.sessions =
          aupsert rid (outputPathOf outputDir recId) st.sessions := by
        simp [startRecording, h, hw, hso, hdv, hda]
      rw [this]
      exact filter_aupsert rid _ st.sessions

/-- Concrete recorder state over the C3 SFU state (publisher + one track). -/
def c9State : RecorderState :=
  { sfu := c3State, files := [], sessions := [], procs := [], nextProc := 0 }

/-- Witness for C9: a successful start on a room with one track registers the
sink and stores the session. -/
theorem startRecording_atomic_witness :
    (getTrackInfo 0 c9State.sfu ≠ []) ∧
      (startRecording "/out" 0 "rec" ⟨true, true, true, true⟩ c9State).2 =
        some (outputPathOf "/out" "rec") ∧
      roomSink (startRecording "/out" 0 "rec" ⟨true, true, true, true⟩
        c9State).1.sfu 0 = true ∧
      (startRecording "/out" 0 "rec" ⟨true, true, true, true⟩
        c9State).1.sessions.filter (fun p => decide (p.1 = 0)) =
        [(0, outputPathOf "/out" "rec")] :=
  ⟨by decide,
    (startRecording_atomic "/out" 0 "rec" ⟨true, true, true, true⟩ c9State).2.2.2
      (by decide) rfl rfl rfl rfl⟩

/-- Every publisher PC ever installed is either closed or still the current
publisher of its room. -/
def pubInvariant (st : SfuState) : Prop :=
  ∀ rid p, (rid, p) ∈ st.pubHistory → p ∈ st.closed ∨ roomPublisher st rid = some p

/-- Installed publisher PCs are below the allocation counter. -/
def pcBound (st : SfuState) : Prop :=
  ∀ rid p, roomPublisher st rid = some p → p < st.nextPC

def goodSfu (st : SfuState) : Prop := pubInvariant st ∧ pcBound st

theorem goodSfu_init : goodSfu initSfu := by
  constructor
  · intro rid p hp
    cases hp
  · intro rid p hp
    cases hp

/-- Sufficient conditions for one SFU step to preserve `goodSfu`: publishers
of untouched rooms unchanged, closures monotone, allocation counter monotone,
and the touched room either keeps its publisher, frees it (closing the old
one), or installs the fresh PC (closing the old one). -/
theorem goodSfu_transfer (st st' : SfuState) (rid : RoomId)
    (hothers : ∀ rid', rid' ≠ rid → roomPublisher st' rid' = roomPublisher st rid')
    (hclosed : ∀ p, p ∈ st.closed → p ∈ st'.closed)
    (hnext : st.nextPC ≤ st'.nextPC)
    (hcase :
      (st'.pubHistory = st.pubHistory ∧
        roomPublisher st' rid = roomPublisher st rid) ∨
      (st'.pubHistory = st.pubHistory ∧ roomPublisher st' rid = none ∧
        (∀ p, roomPublisher st rid = some p → p ∈ st'.closed)) ∨
      (st'.pubHistory = (rid, st.nextPC) :: st.pubHistory ∧
        roomPublisher st' rid = some st.nextPC ∧ st.nextPC < st'.nextPC ∧
        (∀ p, roomPublisher st rid = some p → p ∈ st'.closed)))
    (h : goodSfu st) : goodSfu st' := by
  obtain ⟨hinv, hbound⟩ := h
  constructor
  · intro r p hp
    rcases hcase with ⟨hh, hpub⟩ | ⟨hh, hpub, hold⟩ | ⟨hh, hpub, hlt, hold⟩
    · rw [hh] at hp
      rcases hinv r p hp with hc | hc
      · exact Or.inl (hclosed p hc)
      · by_cases hr : r = rid
        · subst hr
          rw [hpub]
          exact Or.inr hc
        · rw [hothers r hr]
          exact Or.inr hc
    · rw [hh] at hp
      rcases hinv r p hp with hc | hc
      · exact Or.inl (hclosed p hc)
      · by_cases hr : r = rid
        · subst hr
          exact Or.inl (hold p hc)
        · rw [hothers r hr]
          exact Or.inr hc
    · rw [hh] at hp
      rcases List.mem_cons.mp hp with heq | hmem
      · have hr : r = rid := congrArg Prod.fst heq
        have hpp : p = st.nextPC := congrArg Prod.snd heq
        subst hr
        subst hpp
        rw [hpub]
        exact Or.inr rfl
      · rcases hinv r p hmem with hc | hc
        · exact Or.inl (hclosed p hc)
        · by_cases hr : r = rid
          · subst hr
            exact Or.inl (hold p hc)
          · rw [hothers r hr]
            exact Or.inr hc
  · intro r p hp
    by_cases hr : r = rid
    · subst hr
      rcases hcase with ⟨hh, hpub⟩ | ⟨hh, hpub, hold⟩ | ⟨hh, hpub, hlt, hold⟩
      · rw [hpub] at hp
        exact lt_of_lt_of_le (hbound _ _ hp) hnext
      · rw [hpub] at hp
        cases hp
      · rw [hpub] at hp
        have : p = st.nextPC := (Option.some.inj hp).symm
        subst this
        exact hlt
    · rw [hothers r hr] at hp
      exact lt_of_lt_of_le (hbound _ _ hp) hnext

theorem pubOffer_preserves (rid : RoomId) (role : String) (o : NegOracle)
    (st : SfuState) (h : goodSfu st) :
    goodSfu (handlePublisherOffer rid role o st).st := by
  by_cases hrole : role ≠ "speaker" ∧ role ≠ "admin"
  · unfold handlePublisherOffer
    rw [if_pos hrole]
    exact h
  · refine goodSfu_transfer st _ rid ?hothers ?hclosed ?hnext ?hcase h
    case hothers =>
      intro rid' hne
      unfold handlePublisherOffer
      rw [if_neg hrole]
      cases hroom : alookup rid st.rooms with
      | some r =>
        cases hpub : r.publisher with
        | some p =>
          cases o.mediaEngineOk <;> cases o.newPCOk <;> cases o.setRemoteOk <;>
            cases o.createAnswerOk <;> cases o.setLocalOk <;>
            simp [getOrCreateRoom, hroom, hpub, setRoom, roomPublisher,
              alookup_aupsert_ne _ _ hne]
        | none =>
          cases o.mediaEngineOk <;> cases o.newPCOk <;> cases o.setRemoteOk <;>
            cases o.createAnswerOk <;> cases o.setLocalOk <;>
            simp [getOrCreateRoom, hroom, hpub, setRoom, roomPublisher,
              alookup_aupsert_ne _ _ hne]
      | none =>
        cases o.mediaEngineOk <;> cases o.newPCOk <;> cases o.setRemoteOk <;>
          cases o.createAnswerOk <;> cases o.setLocalOk <;>
          simp [getOrCreateRoom, hroom, emptySfuRoom, setRoom, roomPublisher,
            alookup_aupsert_ne _ _ hne]
    case hclosed =>
      intro p hp
      unfold handlePublisherOffer
      rw [if_neg hrole]
      cases hroom : alookup rid st.rooms with
      | some r =>
        cases hpub : r.publisher with
        | some q =>
          cases o.mediaEngineOk <;> cases o.newPCOk <;> cases o.setRemoteOk <;>
            cases o.createAnswerOk <;> cases o.setLocalOk <;>
            simp [getOrCreateRoom, hroom, hpub, setRoom, hp]
        | none =>
          cases o.mediaEngineOk <;> cases o.newPCOk <;> cases o.setRemoteOk <;>
            cases o.createAnswerOk <;> cases o.setLocalOk <;>
            simp [getOrCreateRoom, hroom, hpub, setRoom, hp]
      | none =>
        cases o.mediaEngineOk <;> cases o.newPCOk <;> cases o.setRemoteOk <;>
          cases o.createAnswerOk <;> cases o.setLocalOk <;>
          simp [getOrCreateRoom, hroom, emptySfuRoom, setRoom, hp]
    case hnext =>
      unfold handlePublisherOffer
      rw [if_neg hrole]
      cases hroom : alookup rid st.rooms with
      | some r =>
        cases hpub : r.publisher with
        | some q =>
          cases o.mediaEngineOk <;> cases o.newPCOk <;> cases o.setRemoteOk <;>
            cases o.createAnswerOk <;> cases o.setLocalOk <;>
            simp [getOrCreateRoom, hroom, hpub, setRoom]
        | none =>
          cases o.mediaEngineOk <;> cases o.newPCOk <;> cases o.setRemoteOk <;>
            cases o.createAnswerOk <;> cases o.setLocalOk <;>
            simp [getOrCreateRoom, hroom, hpub, setRoom]
      | none =>
        cases o.mediaEngineOk <;> cases o.newPCOk <;> cases o.setRemoteOk <;>
          cases o.createAnswerOk <;> cases o.setLocalOk <;>
          simp [getOrCreateRoom, hroom, emptySfuRoom, setRoom]
    case hcase =>
      unfold handlePublisherOffer
      rw [if_neg hrole]
      cases hroom : alookup rid st.rooms with
      | some r =>
        cases hpub : r.publisher with
        | some q =>
          cases o.mediaEngineOk <;> cases o.newPCOk <;> cases o.setRemoteOk <;>
            cases o.createAnswerOk <;> cases o.setLocalOk <;>
            simp [getOrCreateRoom, hroom, hpub, setRoom, roomPublisher,
              alookup_aupsert_self]
        | none =>
          cases o.mediaEngineOk <;> cases o.newPCOk <;> cases o.setRemoteOk <;>
            cases o.createAnswerOk <;> cases o.setLocalOk <;>
            simp [getOrCreateRoom, hroom, hpub, setRoom, roomPublisher,
              alookup_aupsert_self]
      | none =>
        cases o.mediaEngineOk <;> cases o.newPCOk <;> cases o.setRemoteOk <;>
          cases o.createAnswerOk <;> cases o.setLocalOk <;>
          simp [getOrCreateRoom, hroom, emptySfuRoom, setRoom, roomPublisher,
            alookup_aupsert_self]

theorem subscribe_preserves (rid : RoomId) (cid : ClientId) (o : NegOracle)
    (st : SfuState) (h : goodSfu st) :
    goodSfu (handleSubscribe rid cid o st).st := by
  refine goodSfu_transfer st _ rid ?hothers ?hclosed ?hnext ?hcase h
  case hothers =>
    intro rid' hne
    unfold handleSubscribe
    cases hroom : alookup rid st.rooms with
    | none => rfl
    | some r =>
      by_cases hc : r.publisher = none ∨ r.tracks = []
      · simp [hc]
      · cases o.mediaEngineOk <;> cases o.newPCOk <;> cases o.createOfferOk <;>
          cases o.setLocalOk <;>
          simp [hc, setRoom, roomPublisher, alookup_aupsert_ne _ _ hne]
  case hclosed =>
    intro p hp
    unfold handleSubscribe
    cases hroom : alookup rid st.rooms with
    | none => exact hp
    | some r =>
      by_cases hc : r.publisher = none ∨ r.tracks = []
      · simp [hc, hp]
      · cases o.mediaEngineOk <;> cases o.newPCOk <;> cases o.createOfferOk <;>
          cases o.setLocalOk <;> simp [hc, setRoom, hp]
  case hnext =>
    unfold handleSubscribe
    cases hroom : alookup rid st.rooms with
    | none => exact Nat.le_refl _
    | some r =>
      by_cases hc : r.publisher = none ∨ r.tracks = []
      · simp [hc]
      · cases o.mediaEngineOk <;> cases o.newPCOk <;> cases o.createOfferOk <;>
          cases o.setLocalOk <;> simp [hc, setRoom]
  case hcase =>
    refine Or.inl ⟨?_, ?_⟩
    · unfold handleSubscribe
      cases hroom : alookup rid st.rooms with
      | none => rfl
      | some r =>
        by_cases hc : r.publisher = none ∨ r.tracks = []
        · simp [hc]
        · cases o.mediaEngineOk <;> cases o.newPCOk <;> cases o.createOfferOk <;>
            cases o.setLocalOk <;> simp [hc, setRoom]
    · unfold handleSubscribe
      cases hroom : alookup rid st.rooms with
      | none => rfl
      | some r =>
        by_cases hc : r.publisher = none ∨ r.tracks = []
        · simp [hc]
        · cases o.mediaEngineOk <;> cases o.newPCOk <;> cases o.createOfferOk <;>
            cases o.setLocalOk <;>
            simp [hc, setRoom, roomPublisher, alookup_aupsert_self, hroom]

theorem onTrack_preserves (rid : RoomId) (remote : RemoteTrack)
    (localOk : List Bool) (st : SfuState) (h : goodSfu st) :
    goodSfu (onTrack rid remote localOk st) := by
  refine goodSfu_transfer st _ rid ?hothers ?hclosed ?hnext ?hcase h
  case hothers =>
    intro rid' hne
    unfold onTrack
    cases hroom : alookup rid st.rooms with
    | none => rfl
    | some r =>
      simp [setRoom, roomPublisher, alookup_aupsert_ne _ _ hne]
  case hclosed =>
    intro p hp
    unfold onTrack
    cases hroom : alookup rid st.rooms with
    | none => exact hp
    | some r => simpa [setRoom] using hp
  case hnext =>
    unfold onTrack
    cases hroom : alookup rid st.rooms with
    | none => exact Nat.le_refl _
    | some r => simp [setRoom]
  case hcase =>
    refine Or.inl ⟨?_, ?_⟩
    · unfold onTrack
      cases hroom : alookup rid st.rooms with
      | none => rfl
      | some r => simp [setRoom]
    · unfold onTrack
      cases hroom : alookup rid st.rooms with
      | none => rfl
      | some r =>
        simp [setRoom, roomPublisher, alookup_aupsert_self, hroom]

theorem unregisterClient_preserves (rid : RoomId) (cid : ClientId)
    (st : SfuState) (h : goodSfu st) :
    goodSfu (unregisterClient rid cid st) := by
  refine goodSfu_transfer st _ rid ?hothers ?hclosed ?hnext ?hcase h
  case hothers =>
    intro rid' hne
    unfold unregisterClient
    cases hroom : alookup rid st.rooms with
    | none => rfl
    | some r =>
      dsimp only
      cases hsub : alookup cid r.subscribers with
      | none => rfl
      | some pc =>
        simp [setRoom, roomPublisher, alookup_aupsert_ne _ _ hne]
  case hclosed =>
    intro p hp
    unfold unregisterClient
    cases hroom : alookup rid st.rooms with
    | none => exact hp
    | some r =>
      dsimp only
      cases hsub : alookup cid r.subscribers with
      | none => exact hp
      | some pc => simp [setRoom, hp]
  case hnext =>
    unfold unregisterClient
    cases hroom : alookup rid st.rooms with
    | none => exact Nat.le_refl _
    | some r =>
      dsimp only
      cases hsub : alookup cid r.subscribers with
      | none => exact Nat.le_refl _
      | some pc => simp [setRoom]
  case hcase =>
    refine Or.inl ⟨?_, ?_⟩
    · unfold unregisterClient
      cases hroom : alookup rid st.rooms with
      | none => rfl
      | some r =>
        dsimp only
        cases hsub : alookup cid r.subscribers with
        | none => rfl
        | some pc => simp [setRoom]
    · unfold unregisterClient
      cases hroom : alookup rid st.rooms with
      | none => rfl
      | some r =>
        dsimp only
        cases hsub : alookup cid r.subscribers with
        | none => rfl
        | some pc =>
          simp [setRoom, roomPublisher, alookup_aupsert_self, hroom]

theorem closePublisher_preserves (rid : RoomId) (st : SfuState)
    (h : goodSfu st) : goodSfu (closePublisher rid st) := by
  refine goodSfu_transfer st _ rid ?hothers ?hclosed ?hnext ?hcase h
  case hothers =>
    intro rid' hne
    unfold closePublisher
    cases hroom : alookup rid st.rooms with
    | none => rfl
    | some r =>
      simp [setRoom, roomPublisher, alookup_aupsert_ne _ _ hne]
  case hclosed =>
    intro p hp
    unfold closePublisher
    cases hroom : alookup rid st.rooms with
    | none => exact hp
    | some r =>
      dsimp only
      cases hpub : r.publisher with
      | none => simp [setRoom, hp]
      | some q => simp [setRoom, hp]
  case hnext =>
    unfold closePublisher
    cases hroom : alookup rid st.rooms with
    | none => exact Nat.le_refl _
    | some r => simp [setRoom]
  case hcase =>
    refine Or.inr (Or.inl ⟨?_, ?_, ?_⟩)
    · unfold closePublisher
      cases hroom : alookup rid st.rooms with
      | none => rfl
      | some r => simp [setRoom]
    · unfold closePublisher
      cases hroom : alookup rid st.rooms with
      | none => simp [roomPublisher, hroom]
      | some r =>
        simp [setRoom, roomPublisher, alookup_aupsert_self]
    · intro p hp
      unfold closePublisher
      unfold roomPublisher at hp
      cases hroom : alookup rid st.rooms with
      | none => rw [hroom] at hp; cases hp
      | some r =>
        rw [hroom] at hp
        simp only at hp
        dsimp only
        cases hpub : r.publisher with
        | none => rw [hpub] at hp; cases hp
        | some q =>
          rw [hpub] at hp
          have : q = p := Option.some.inj hp
          subst this
          simp [setRoom]

theorem regSink_preserves (rid : RoomId) (st : SfuState) (h : goodSfu st) :
    goodSfu (registerRecordingSink rid st) := by
  refine goodSfu_transfer st _ rid ?hothers ?hclosed ?hnext ?hcase h
  case hothers =>
    intro rid' hne
    unfold registerRecordingSink
    cases hroom : alookup rid st.rooms with
    | none => rfl
    | some r => simp [setRoom, roomPublisher, alookup_aupsert_ne _ _ hne]
  case hclosed =>
    intro p hp
    unfold registerRecordingSink
    cases hroom : alookup rid st.rooms with
    | none => exact hp
    | some r => simpa [setRoom] using hp
  case hnext =>
    unfold registerRecordingSink
    cases hroom : alookup rid st.rooms with
    | none => exact Nat.le_refl _
    | some r => simp [setRoom]
  case hcase =>
    refine Or.inl ⟨?_, ?_⟩
    · unfold registerRecordingSink
      cases hroom : alookup rid st.rooms with
      | none => rfl
      | some r => simp [setRoom]
    · unfold registerRecordingSink
      cases hroom : alookup rid st.rooms with
      | none => rfl
      | some r => simp [setRoom, roomPublisher, alookup_aupsert_self, hroom]

theorem unregSink_preserves (rid : RoomId) (st : SfuState) (h : goodSfu st) :
    goodSfu (unregisterRecordingSink rid st) := by
  refine goodSfu_transfer st _ rid ?hothers ?hclosed ?hnext ?hcase h
  case hothers =>
    intro rid' hne
    unfold unregisterRecordingSink
    cases hroom : alookup rid st.rooms with
    | none => rfl
    | some r => simp [setRoom, roomPublisher, alookup_aupsert_ne _ _ hne]
  case hclosed =>
    intro p hp
    unfold unregisterRecordingSink
    cases hroom : alookup rid st.rooms with
    | none => exact hp
    | some r => simpa [setRoom] using hp
  case hnext =>
    unfold unregisterRecordingSink
    cases hroom : alookup rid st.rooms with
    | none => exact Nat.le_refl _
    | some r => simp [setRoom]
  case hcase =>
    refine Or.inl ⟨?_, ?_⟩
    · unfold unregisterRecordingSink
      cases hroom : alookup rid st.rooms with
      | none => rfl
      | some r => simp [setRoom]
    · unfold unregisterRecordingSink
      cases hroom : alookup rid st.rooms with
      | none => rfl
      | some r => simp [setRoom, roomPublisher, alookup_aupsert_self, hroom]

theorem goodSfu_apply (st : SfuState) (op : SfuOp) (h : goodSfu st) :
    goodSfu (applySfuOp st op) := by
  cases op with
  | pubOffer rid role o => exact pubOffer_preserves rid role o st h
  | subscribe rid cid o => exact subscribe_preserves rid cid o st h
  | trackArrives rid remote localOk => exact onTrack_preserves rid remote localOk st h
  | unregister rid cid => exact unregisterClient_preserves rid cid st h
  | closePub rid => exact closePublisher_preserves rid st h
  | regSink rid => exact regSink_preserves rid st h
  | unregSink rid => exact unregSink_preserves rid st h

theorem goodSfu_run (ops : List SfuOp) : goodSfu (runSfu ops) := by
  unfold runSfu
  have hgen : ∀ (l : List SfuOp) (st : SfuState), goodSfu st →
      goodSfu (l.foldl applySfuOp st) := by
    intro l
    induction l with
    | nil => intro st h; exact h
    | cons op rest ih =>
      intro st h
      rw [List.foldl_cons]
      exact ih _ (goodSfu_apply st op h)
  exact hgen ops initSfu goodSfu_init

theorem pubOffer_replaces (rid : RoomId) (role : String) (o : NegOracle)
    (st : SfuState) (p : PC) (hrole : role = "speaker" ∨ role = "admin")
    (hpub : roomPublisher st rid = some p) (hb : pcBound st) :
    p ∈ (handlePublisherOffer rid role o st).st.closed ∧
    roomTracks (handlePublisherOffer rid role o st).st rid = some [] ∧
    (∀ q, roomPublisher (handlePublisherOffer rid role o st).st rid = some q →
      q ≠ p) := by
  have hplt : p < st.nextPC := hb rid p hpub
  have hnot : ¬ (role ≠ "speaker" ∧ role ≠ "admin") := by
    rcases hrole with h | h <;> simp [h]
  unfold roomPublisher at hpub
  cases hroom : alookup rid st.rooms with
  | none => rw [hroom] at hpub; cases hpub
  | some r =>
    rw [hroom] at hpub
    simp only at hpub
    unfold handlePublisherOffer
    rw [if_neg hnot]
    cases hme : o.mediaEngineOk <;> cases hnp : o.newPCOk <;>
      cases hsr : o.setRemoteOk <;> cases hca : o.createAnswerOk <;>
      cases hsl : o.setLocalOk <;>
      · refine ⟨?_, ?_, ?_⟩
        · simp [getOrCreateRoom, hroom, hpub, setRoom]
        · simp [getOrCreateRoom, hroom, hpub, setRoom, roomTracks,
            alookup_aupsert_self]
        · intro q hq
          simp [getOrCreateRoom, hroom, hpub, setRoom, roomPublisher,
            alookup_aupsert_self] at hq
          all_goals
            intro hc
            subst hc
            rw [hq] at hplt
            exact Nat.lt_irrefl _ hplt

/-- C1: in every SFU state reachable by a sequence of operations, at most one
non-closed publisher PC exists per room (all but the current one are closed);
and when `HandlePublisherOffer` is invoked with role `speaker` or `admin`
while a publisher already exists in the room, that prior publisher PC is
closed and the room's track list is cleared, and any newly installed
publisher is a different PC. -/
theorem exactly_one_publisher (ops : List SfuOp) :
    (∀ (rid : RoomId) (p q : PC), (rid, p) ∈ (runSfu ops).pubHistory →
      (rid, q) ∈ (runSfu ops).pubHistory → p ∉ (runSfu ops).closed →
      q ∉ (runSfu ops).closed → p = q) ∧
    (∀ (rid : RoomId) (role : String) (o : NegOracle) (p : PC),
      (role = "speaker" ∨ role = "admin") →
      roomPublisher (runSfu ops) rid = some p →
      p ∈ (handlePublisherOffer rid role o (runSfu ops)).st.closed ∧
      roomTracks (handlePublisherOffer rid role o (runSfu ops)).st rid =
        some [] ∧
      (∀ q, roomPublisher (handlePublisherOffer rid role o (runSfu ops)).st rid =
        some q → q ≠ p)) := by
  obtain ⟨hinv, hb⟩ := goodSfu_run ops
  constructor
  · intro rid p q hp hq hpc hqc
    rcases hinv rid p hp with hc | hc
    · exact absurd hc hpc
    rcases hinv rid q hq with hc' | hc'
    · exact absurd hc' hqc
    exact Option.some.inj (hc.symm.trans hc')
  · intro rid role o p hrole hpub
    exact pubOffer_replaces rid role o _ p hrole hpub hb

/-- Witness for C1: a room with a publisher, replaced by a second offer. -/
theorem exactly_one_publisher_witness :
    (roomPublisher (runSfu [SfuOp.pubOffer 0 "speaker" okOracle]) 0 = some 0) ∧
      (0 : PC) ∈ (handlePublisherOffer 0 "speaker" okOracle
        (runSfu [SfuOp.pubOffer 0 "speaker" okOracle])).st.closed ∧
      roomTracks (handlePublisherOffer 0 "speaker" okOracle
        (runSfu [SfuOp.pubOffer 0 "speaker" okOracle])).st 0 = some [] ∧
      (∀ q, roomPublisher (handlePublisherOffer 0 "speaker" okOracle
        (runSfu [SfuOp.pubOffer 0 "speaker" okOracle])).st 0 = some q → q ≠ 0) :=
  ⟨by decide,
    (exactly_one_publisher [SfuOp.pubOffer 0 "speaker" okOracle]).2
      0 "speaker" okOracle 0 (Or.inl rfl) (by decide)⟩
